import Mathlib

set_option maxHeartbeats 1000000

/-!
Verification of the kubeAegis manifest repair engine.

This file gives a shallow embedding of the two core tool modules
(`k8s_resolver.py` and `k8s_validator.py`) and proves or refutes the
frozen claims about them.

Documents are modelled as trees of YAML-style values with string keys
(the data model of the spec).  Python dictionary/iteration semantics
(`in`, `.get`, item access, item assignment, truthiness) are modelled
explicitly; operations that raise `TypeError`/`AttributeError`/`KeyError`
in Python are modelled in the `Except` monad.  Whitespace is modelled as
ASCII whitespace.
-/

/-- A parsed manifest value: strings, integers, booleans, null, mappings
with string keys, and sequences. -/
inductive Val where
  | str (s : String)
  | int (n : Int)
  | bool (b : Bool)
  | null
  | map (entries : List (String × Val))
  | list (items : List Val)
deriving Repr

abbrev Entries := List (String × Val)

/-- Python `v == s` for a string literal `s`: in Python no non-string
value compares equal to a string, so this is a match on the string case. -/
def isStrEq (v : Val) (s : String) : Bool :=
  match v with
  | .str s2 => s2 == s
  | _ => false

/-- Lookup in an ordered mapping (Python dict keeps one entry per key;
first-occurrence semantics coincide with dict semantics on
duplicate-free entry lists, which is what parsed documents are). -/
def findVal : Entries → String → Option Val
  | [], _ => none
  | (k, v) :: rest, key => if k = key then some v else findVal rest key

/-- Item assignment on an ordered mapping: updating an existing key keeps
its position, a new key is appended at the end (Python dict semantics). -/
def setVal : Entries → String → Val → Entries
  | [], key, v => [(key, v)]
  | (k, w) :: rest, key, v =>
      if k = key then (key, v) :: rest else (k, w) :: setVal rest key v

/-- Python truthiness of a value (a string is truthy iff non-empty,
expressed on its character list). -/
def truthy : Val → Bool
  | .str s => !s.data.isEmpty
  | .int n => n != 0
  | .bool b => b
  | .null => false
  | .map m => !m.isEmpty
  | .list l => !l.isEmpty

/-- Substring test on character lists (Python `pat in s` for strings). -/
def containsSub (pat : List Char) : List Char → Bool
  | [] => pat.isEmpty
  | c :: rest => pat.isPrefixOf (c :: rest) || containsSub pat rest

/-- ASCII whitespace, as recognised by Python `str.strip` (restricted to
the ASCII range). -/
def pyIsSpace (c : Char) : Bool :=
  c == ' ' || c == '\t' || c == '\n' || c == '\r' || c == '\x0b' || c == '\x0c'

/-- Python `s.strip()` (ASCII whitespace). -/
def pyStripChars (l : List Char) : List Char :=
  ((l.dropWhile pyIsSpace).reverse.dropWhile pyIsSpace).reverse

/-- Python `s.strip()` on strings. -/
def pyStrip (s : String) : String := String.mk (pyStripChars s.data)

/-- ASCII lower-casing of one character (Python `str.lower` on the
characters appearing here). -/
def charLower (c : Char) : Char :=
  if 'A' ≤ c && c ≤ 'Z' then Char.ofNat (c.toNat + 32) else c

/-- Python `x in v` where `x` is a string: key membership for dicts,
substring for strings, element membership for lists; `TypeError` for
non-iterable values. -/
def pyContainsKey (v : Val) (key : String) : Except String Bool :=
  match v with
  | .map m => .ok (findVal m key).isSome
  | .str s => .ok (containsSub key.data s.data)
  | .list l => .ok (l.any (fun x => isStrEq x key))
  | _ => .error "TypeError: argument is not iterable"

/-- Python `v.get(key)`: only dicts have `.get`; absent keys give `None`. -/
def pyDictGet (v : Val) (key : String) : Except String Val :=
  match v with
  | .map m => .ok ((findVal m key).getD .null)
  | _ => .error "AttributeError: no attribute get"

/-- Python `v[key]` with a string key. -/
def pyGetItem (v : Val) (key : String) : Except String Val :=
  match v with
  | .map m =>
      match findVal m key with
      | some x => .ok x
      | none => .error "KeyError"
  | _ => .error "TypeError: value is not subscriptable with a string"

/-- Python `v[key] = x` with a string key. -/
def pySetItem (v : Val) (key : String) (x : Val) : Except String Val :=
  match v with
  | .map m => .ok (.map (setVal m key x))
  | _ => .error "TypeError: value does not support item assignment"

/-- Python `v.lower()`: strings only. -/
def pyLower (v : Val) : Except String String :=
  match v with
  | .str s => .ok (String.mk (s.data.map charLower))
  | _ => .error "AttributeError: no attribute lower"

/-- Python `for x in v`: lists yield their items, strings their
characters, dicts their keys; other values raise `TypeError`. -/
def pyIterate (v : Val) : Except String (List Val) :=
  match v with
  | .list l => .ok l
  | .str s => .ok (s.data.map (fun c => Val.str (String.mk [c])))
  | .map m => .ok (m.map (fun p => Val.str p.1))
  | _ => .error "TypeError: value is not iterable"

/-! ### Fix messages of the resolver (`k8s_resolver.py`) -/

def msgInvalidManifest : String := "Invalid manifest format"
def msgAddedApiVersion : String := "✓ Added default apiVersion (v1)"
def msgMissingKind : String := "⚠ Missing \x27kind\x27 field - cannot proceed"
def msgAddedMetadata : String := "✓ Added metadata section"
def msgAddedName (nm : String) : String := "✓ Added default name: " ++ nm
def msgAddedNamespace : String := "✓ Added default namespace (default)"
def msgAddedSpec : String := "✓ Added spec section"
def msgAddedDefaultContainer : String := "✓ Added default container"
def msgFixedContainerName (i : Nat) (nm : String) : String :=
  "✓ Fixed container " ++ toString i ++ " name: " ++ nm
def msgAddedImage (i : Nat) : String :=
  "✓ Added default image to container " ++ toString i ++ ": nginx:latest"
def msgAddedPullPolicy (i : Nat) : String :=
  "✓ Added imagePullPolicy to container " ++ toString i
def msgAddedRestartPolicy : String := "✓ Added default restartPolicy (Always)"
def msgAddedReplicas : String := "✓ Added default replicas"
def msgAddedSelector : String := "✓ Added default selector"
def msgAddedTemplate : String := "✓ Added template section"
def msgAddedPorts : String := "✓ Added default ports"

/-! ### The semantic resolver (`ManifestResolver`, `k8s_resolver.py`) -/

/-- `if "apiVersion" not in fixed_manifest or not fixed_manifest.get("apiVersion")`:
install the default `"v1"` when `apiVersion` is absent or falsy. -/
def fixApiVersion (m : Entries) : Entries × List String :=
  match findVal m "apiVersion" with
  | some v =>
      if truthy v then (m, [])
      else (setVal m "apiVersion" (.str "v1"), [msgAddedApiVersion])
  | none => (setVal m "apiVersion" (.str "v1"), [msgAddedApiVersion])

/-- `if key not in v or not v.get(key)` (short-circuit order preserved). -/
def needFill (v : Val) (key : String) : Except String Bool :=
  match pyContainsKey v key with
  | .error e => .error e
  | .ok c =>
      if c then
        match pyDictGet v key with
        | .error e => .error e
        | .ok x => .ok (!truthy x)
      else .ok true

/-- `if key not in v or not v[key]` (short-circuit order preserved). -/
def needFillItem (v : Val) (key : String) : Except String Bool :=
  match pyContainsKey v key with
  | .error e => .error e
  | .ok c =>
      if c then
        match pyGetItem v key with
        | .error e => .error e
        | .ok x => .ok (!truthy x)
      else .ok true

/-- `if key not in v: v[key] = dflt` with one fix message. -/
def ensureKey (v : Val) (key : String) (dflt : Val) (msg : String) :
    Except String (Val × List String) :=
  match pyContainsKey v key with
  | .error e => .error e
  | .ok c =>
      if c then .ok (v, [])
      else
        match pySetItem v key dflt with
        | .error e => .error e
        | .ok v2 => .ok (v2, [msg])

/-- The name/namespace part of the metadata block, once `metadata` has
been ensured present with value `md0` (`f0` is the fix list of the
presence step). -/
def fix_metadata_body (m : Entries) (kind : Val) (md0 : Val) (f0 : List String) :
    Except String (Entries × List String) :=
  match needFill md0 "name" with
  | .error e => .error e
  | .ok needN =>
      let step1 : Except String (Val × List String) :=
        if needN then
          match pyLower kind with
          | .error e => .error e
          | .ok low =>
              match pySetItem md0 "name" (.str (low ++ "-default")) with
              | .error e => .error e
              | .ok md2 => .ok (md2, [msgAddedName (low ++ "-default")])
        else .ok (md0, [])
      match step1 with
      | .error e => .error e
      | .ok r1 =>
          match ensureKey r1.1 "namespace" (.str "default") msgAddedNamespace with
          | .error e => .error e
          | .ok r2 => .ok (setVal m "metadata" r2.1, f0 ++ r1.2 ++ r2.2)

/-- The metadata block of `resolve_manifest` (lines 187–199 of
`k8s_resolver.py`): create `metadata` if absent, default `name` from the
kind, default `namespace`. -/
def fix_metadata (m : Entries) (kind : Val) : Except String (Entries × List String) :=
  match findVal m "metadata" with
  | none => fix_metadata_body m kind (.map []) [msgAddedMetadata]
  | some v => fix_metadata_body m kind v []

def defaultContainers : Val :=
  .list [.map [("name", .str "container-0"), ("image", .str "nginx:latest")]]

/-- The `if key not in c or not c.get(key): c[key] = dflt` pattern used
for a container's `name` and `image`. -/
def fillField (c : Val) (key : String) (dflt : String) (msg : String) :
    Except String (Val × List String) :=
  match needFill c key with
  | .error e => .error e
  | .ok needN =>
      if needN then
        match pySetItem c key (.str dflt) with
        | .error e => .error e
        | .ok c2 => .ok (c2, [msg])
      else .ok (c, [])

/-- One iteration of the container loop of `_fix_pod_spec`. -/
def fix_container (i : Nat) (c : Val) : Except String (Val × List String) :=
  match fillField c "name" ("container-" ++ toString i)
      (msgFixedContainerName i ("container-" ++ toString i)) with
  | .error e => .error e
  | .ok r1 =>
      match fillField r1.1 "image" "nginx:latest" (msgAddedImage i) with
      | .error e => .error e
      | .ok r2 =>
          match pyContainsKey r2.1 "imagePullPolicy" with
          | .error e => .error e
          | .ok cP =>
              if !cP then
                match pySetItem r2.1 "imagePullPolicy" (.str "IfNotPresent") with
                | .error e => .error e
                | .ok c3 => .ok (c3, r1.2 ++ r2.2 ++ [msgAddedPullPolicy i])
              else .ok (r2.1, r1.2 ++ r2.2)

/-- `for i, container in enumerate(spec["containers"])`. -/
def fixContainers (i : Nat) : List Val → Except String (List Val × List String)
  | [] => .ok ([], [])
  | c :: rest =>
      match fix_container i c with
      | .error e => .error e
      | .ok r =>
          match fixContainers (i + 1) rest with
          | .error e => .error e
          | .ok rs => .ok (r.1 :: rs.1, r.2 ++ rs.2)

/-- The containers/restartPolicy part of `_fix_pod_spec`, once `spec`
has been ensured present with value `sp0`. -/
def fix_pod_body (m : Entries) (sp0 : Val) (f0 : List String) :
    Except String (Entries × List String) :=
  match needFillItem sp0 "containers" with
  | .error e => .error e
  | .ok need =>
      let step1 : Except String (Val × List String) :=
        if need then
          match pySetItem sp0 "containers" defaultContainers with
          | .error e => .error e
          | .ok sp => .ok (sp, [msgAddedDefaultContainer])
        else
          match pyGetItem sp0 "containers" with
          | .error e => .error e
          | .ok cv =>
              match pyIterate cv with
              | .error e => .error e
              | .ok elems =>
                  match fixContainers 0 elems with
                  | .error e => .error e
                  | .ok r =>
                      match pySetItem sp0 "containers" (.list r.1) with
                      | .error e => .error e
                      | .ok sp => .ok (sp, r.2)
      match step1 with
      | .error e => .error e
      | .ok r1 =>
          match ensureKey r1.1 "restartPolicy" (.str "Always") msgAddedRestartPolicy with
          | .error e => .error e
          | .ok r2 => .ok (setVal m "spec" r2.1, f0 ++ r1.2 ++ r2.2)

/-- `ManifestResolver._fix_pod_spec`. -/
def fix_pod_spec (m : Entries) : Except String (Entries × List String) :=
  match findVal m "spec" with
  | none => fix_pod_body m (.map []) [msgAddedSpec]
  | some v => fix_pod_body m v []

def defaultDeploySelector : Val := .map [("matchLabels", .map [("app", .str "default")])]

def defaultTemplate : Val :=
  .map [("metadata", .map [("labels", .map [("app", .str "default")])]),
        ("spec", .map [])]

/-- The replicas/selector/template part of `_fix_deployment_spec`, once
`spec` has been ensured present with value `sp0`. -/
def fix_deployment_body (m : Entries) (sp0 : Val) (f0 : List String) :
    Except String (Entries × List String) :=
  match ensureKey sp0 "replicas" (.int 1) msgAddedReplicas with
  | .error e => .error e
  | .ok r1 =>
      match ensureKey r1.1 "selector" defaultDeploySelector msgAddedSelector with
      | .error e => .error e
      | .ok r2 =>
          match ensureKey r2.1 "template" defaultTemplate msgAddedTemplate with
          | .error e => .error e
          | .ok r3 => .ok (setVal m "spec" r3.1, f0 ++ r1.2 ++ r2.2 ++ r3.2)

/-- `ManifestResolver._fix_deployment_spec`. -/
def fix_deployment_spec (m : Entries) : Except String (Entries × List String) :=
  match findVal m "spec" with
  | none => fix_deployment_body m (.map []) [msgAddedSpec]
  | some v => fix_deployment_body m v []

def defaultPorts : Val := .list [.map [("port", .int 80), ("targetPort", .int 8080)]]

/-- The selector/ports part of `_fix_service_spec`, once `spec` has been
ensured present with value `sp0`. -/
def fix_service_body (m : Entries) (sp0 : Val) (f0 : List String) :
    Except String (Entries × List String) :=
  match ensureKey sp0 "selector" (.map [("app", .str "default")]) msgAddedSelector with
  | .error e => .error e
  | .ok r1 =>
      match needFillItem r1.1 "ports" with
      | .error e => .error e
      | .ok needP =>
          if needP then
            match pySetItem r1.1 "ports" defaultPorts with
            | .error e => .error e
            | .ok sp => .ok (setVal m "spec" sp, f0 ++ r1.2 ++ [msgAddedPorts])
          else .ok (setVal m "spec" r1.1, f0 ++ r1.2)

/-- `ManifestResolver._fix_service_spec`. -/
def fix_service_spec (m : Entries) : Except String (Entries × List String) :=
  match findVal m "spec" with
  | none => fix_service_body m (.map []) [msgAddedSpec]
  | some v => fix_service_body m v []

/-- The per-kind dispatch of `resolve_manifest` (lines 202–212). -/
def dispatchKind (kind : Val) (m : Entries) : Except String (Entries × List String) :=
  if isStrEq kind "Pod" then fix_pod_spec m
  else if isStrEq kind "Deployment" then fix_deployment_spec m
  else if isStrEq kind "Service" then fix_service_spec m
  else .ok (m, [])

/-- `ManifestResolver.resolve_manifest`.  The serialize-then-reparse deep
copy of the input is the identity on value trees, so the function is
written directly on the (copied) document.  Python exceptions raised on
malformed content appear as `Except.error`. -/
def resolve_manifest (manifest : Val) : Except String (Bool × Val × List String) :=
  match manifest with
  | .map m =>
      let af := fixApiVersion m
      match findVal af.1 "kind" with
      | none => .ok (true, .map af.1, af.2 ++ [msgMissingKind])
      | some kind =>
          match fix_metadata af.1 kind with
          | .error e => .error e
          | .ok r2 =>
              match dispatchKind kind r2.1 with
              | .error e => .error e
              | .ok r3 =>
                  let fixes := af.2 ++ r2.2 ++ r3.2
                  .ok (!fixes.isEmpty, .map r3.1, fixes)
  | v => .ok (false, v, [msgInvalidManifest])

/-! ### The structural validator (`KubernetesValidator.validate_manifest`) -/

def SUPPORTED_KINDS : List String := ["Pod", "Deployment", "Service", "ConfigMap", "Secret"]

def REQUIRED_KINDS : List String := ["Pod", "Deployment", "Service"]

def REQUIRED_FIELDS_LIST : List String := ["apiVersion", "kind", "metadata", "spec"]

/-- Rendering of a value inside an f-string (`str()`); collections are
rendered recursively with `repr()`-style elements, with a fuel bound on
the depth (ample for every document considered here). -/
def pyReprFuel : Nat → Val → String
  | _, .str s => "\x27" ++ s ++ "\x27"
  | _, .int n => toString n
  | _, .bool b => if b then "True" else "False"
  | _, .null => "None"
  | 0, _ => ""
  | fuel + 1, .map m =>
      "\x7b" ++ String.intercalate ", "
        (m.map (fun p => "\x27" ++ p.1 ++ "\x27: " ++ pyReprFuel fuel p.2)) ++ "\x7d"
  | fuel + 1, .list l =>
      "[" ++ String.intercalate ", " (l.map (pyReprFuel fuel)) ++ "]"

/-- Python `str(v)` as used in f-strings (top-level strings unquoted). -/
def pyStr (v : Val) : String :=
  match v with
  | .str s => s
  | _ => pyReprFuel 1000 v

def msgMissingKindField : String := "Missing required field: \x27kind\x27"
def msgUnsupportedKind (kind : Val) : String :=
  "Unsupported Kubernetes kind: " ++ pyStr kind
def msgMissingRequired (kind : Val) (field : String) : String :=
  "Missing required field for " ++ pyStr kind ++ ": \x27" ++ field ++ "\x27"
def msgInvalidApiVersion : String := "Invalid apiVersion: must be a non-empty string"
def msgMetadataNotDict : String := "Invalid metadata: must be a dictionary"
def msgMetadataNoName : String := "Missing required field in metadata: \x27name\x27"

/-- The error list accumulated by `validate_manifest` for a present
`kind`: unsupported-kind check, per-kind required fields, apiVersion
type check, metadata type/name check — in that order. -/
def validateErrors (m : Entries) (kind : Val) : List String :=
  (if SUPPORTED_KINDS.any (fun s => isStrEq kind s) then []
   else [msgUnsupportedKind kind]) ++
  (if REQUIRED_KINDS.any (fun s => isStrEq kind s) then
    (REQUIRED_FIELDS_LIST.filter (fun f => (findVal m f).isNone)).map
      (fun f => msgMissingRequired kind f)
   else []) ++
  (match findVal m "apiVersion" with
   | none => []
   | some (.str s) => if (pyStrip s).isEmpty then [msgInvalidApiVersion] else []
   | some _ => [msgInvalidApiVersion]) ++
  (match findVal m "metadata" with
   | none => []
   | some (.map md) => if (findVal md "name").isNone then [msgMetadataNoName] else []
   | some _ => [msgMetadataNotDict])

/-- `KubernetesValidator.validate_manifest`, on a mapping document. -/
def validate_manifest (m : Entries) : Bool × List String :=
  match findVal m "kind" with
  | none => (false, [msgMissingKindField])
  | some kind => ((validateErrors m kind).isEmpty, validateErrors m kind)

/-! ### Python `==` on documents (order-insensitive on mappings), with
structural fuel; used only on concrete documents. -/

def valPyEqFuel : Nat → Val → Val → Bool
  | _, .str a, b => match b with | .str b2 => a == b2 | _ => false
  | _, .null, b => match b with | .null => true | _ => false
  | _, .int a, b =>
      (match b with
       | .int b2 => a == b2
       | .bool b2 => a == (if b2 then 1 else 0)
       | _ => false)
  | _, .bool a, b =>
      (match b with
       | .int b2 => (if a then 1 else 0) == b2
       | .bool b2 => a == b2
       | _ => false)
  | 0, _, _ => false
  | fuel + 1, .map a, b =>
      (match b with
       | .map b2 =>
           a.length == b2.length &&
           a.all (fun p =>
             match findVal b2 p.1 with
             | some w => valPyEqFuel fuel p.2 w
             | none => false)
       | _ => false)
  | fuel + 1, .list a, b =>
      (match b with
       | .list b2 =>
           a.length == b2.length &&
           (a.zip b2).all (fun p => valPyEqFuel fuel p.1 p.2)
       | _ => false)

/-- Python equality of two documents (fuel ample for all concrete uses). -/
def valPyEq (a b : Val) : Bool := valPyEqFuel 1000 a b

/-! ### The recovery pass (`YAMLSyntaxFixer.fix_yaml_syntax`, lines 14–145)

The pass is line oriented; lines are modelled as character lists. -/

abbrev Line := List Char

def strL (s : String) : Line := s.data

/-- Python `line.lstrip()`. -/
def lstripL (l : Line) : Line := l.dropWhile pyIsSpace

/-- Python `line.rstrip()`. -/
def rstripL (l : Line) : Line := (l.reverse.dropWhile pyIsSpace).reverse

/-- `not line.strip()`: blank or whitespace-only line. -/
def isBlankL (l : Line) : Bool := (pyStripChars l).isEmpty

/-- Python `":" in stripped`. -/
def hasColon (l : Line) : Bool := l.any (fun c => c == ':')

/-- `line[:len(line) - len(line.lstrip())]`: the indentation prefix. -/
def indentOf (l : Line) : Line := l.takeWhile pyIsSpace

/-- The fixed vocabulary of bare scalar values recognised by the
orphaned-value rules. -/
def valueVocab : List Line :=
  [strL "True", strL "False", strL "Always", strL "IfNotPresent", strL "Never"]

/-- `any(stripped.startswith(p) for p in [...])`. -/
def startsVocab (l : Line) : Bool := valueVocab.any (fun p => p.isPrefixOf l)

/-- `stripped.split(":")[0] + ":"` (equally `stripped[:colon_idx + 1]`
for the first colon). -/
def keyPartOf (st : Line) : Line := st.takeWhile (fun c => c != ':') ++ [':']

/-- `stripped[colon_idx + 1:]`: the text after the first colon. -/
def afterFirstColon (st : Line) : Line := (st.dropWhile (fun c => c != ':')).drop 1

def natAbsDiff (a b : Nat) : Nat := max a b - min a b

/-- Python `s.replace(pat, rep)` (all occurrences, left to right), with
fuel (the wrapper passes the length of `s`, which is sufficient). -/
def replaceFuel (pat rep : List Char) : Nat → List Char → List Char
  | _, [] => []
  | 0, l => l
  | fuel + 1, c :: rest =>
      if pat.isPrefixOf (c :: rest) && !pat.isEmpty then
        rep ++ replaceFuel pat rep fuel ((c :: rest).drop pat.length)
      else
        c :: replaceFuel pat rep fuel rest

def replaceSub (pat rep l : List Char) : List Char := replaceFuel pat rep l.length l

def msgFixedNginx : String := "✓ Fixed image name: \x27ngin x\x27 -> \x27nginx\x27"
def msgFixedConts : String :=
  "✓ Fixed container name: \x27conts ainer\x27 -> \x27container\x27"
def msgSplitKey (stripped : Line) : String :=
  "✓ Fixed split key: merged \x27" ++ String.mk stripped ++ "\x27 with next line"
def msgOrphanPrev (stripped : Line) : String :=
  "✓ Fixed orphaned value: merged \x27" ++ String.mk stripped ++ "\x27 with previous key"
def msgOrphanKey (vs : Line) : String :=
  "✓ Fixed orphaned value: merged \x27" ++ String.mk vs ++ "\x27 with key"

/-- The two token-splitting typo fixes (lines 45–53); note they rebind
`line` after `stripped`/`indent` were computed. -/
def applyTypos (l : Line) : Line × List String × Bool :=
  let r1 :=
    if containsSub (strL "ngin x") l then
      (replaceSub (strL "ngin x") (strL "nginx") l, [msgFixedNginx], true)
    else (l, ([] : List String), false)
  if containsSub (strL "conts ainer") r1.1 then
    (replaceSub (strL "conts ainer") (strL "container") r1.1, r1.2.1 ++ [msgFixedConts], true)
  else r1

/-- Split-key rule (lines 57–69): a colon-free line whose successor
strips to something starting with `olicy:` is merged with it. -/
def tryRule3 (stripped indent : Line) (rest : List Line) : Option (Line × List Line) :=
  if !hasColon stripped then
    match rest with
    | [] => none
    | next :: rest2 =>
        if (strL "olicy:").isPrefixOf (lstripL next) then
          some (indent ++ stripped ++ lstripL next, rest2)
        else none
  else none

/-- Backward orphaned-value rule (lines 71–97): a bare vocabulary scalar
is merged into the previously emitted line when that line is an empty
key of compatible indentation.  `acc` is the reversed output so far. -/
def tryRule5 (stripped indent : Line) (acc : List Line) : Option (Line × List Line) :=
  if !hasColon stripped && startsVocab stripped then
    match acc with
    | [] => none
    | prev :: acc2 =>
        let ps := lstripL prev
        let pIndentStr := indentOf prev
        if hasColon ps &&
            ((strL ":").isSuffixOf (rstripL ps) || (strL ": ").isSuffixOf (rstripL ps)) &&
            decide (natAbsDiff pIndentStr.length indent.length ≤ 1) then
          some (pIndentStr ++ keyPartOf ps ++ ' ' :: stripped, acc2)
        else none
  else none

/-- Forward orphaned-value rule (lines 99–139): an empty key absorbs the
nearest following non-blank line when it is a bare vocabulary scalar of
compatible indentation; the blanks and the value line are consumed.
(The Python guard `":" in stripped and (... or ":" in stripped)` reduces
to `":" in stripped`.)  Returns the merged line, the remaining input and
the stripped value (for the fix message). -/
def tryRule4 (stripped indent : Line) (rest : List Line) :
    Option (Line × List Line × Line) :=
  if hasColon stripped then
    if (pyStripChars (afterFirstColon stripped)).isEmpty then
      let blanks := rest.takeWhile (fun cl => (pyStripChars cl).isEmpty)
      match rest.drop blanks.length with
      | [] => none
      | v :: rest2 =>
          let vs := lstripL v
          if decide (natAbsDiff (v.length - vs.length) indent.length ≤ 1) &&
              !vs.isEmpty && !hasColon vs && startsVocab vs then
            some (indent ++ keyPartOf stripped ++ ' ' :: vs, rest2, vs)
          else none
    else none
  else none

/-- The scanning loop of the recovery pass, with fuel (the wrapper passes
the number of lines, which suffices because every step consumes at least
one line).  `acc` holds the emitted lines in reverse order. -/
def goFuel : Nat → List Line → List Line → List String → Bool →
    Bool × List Line × List String
  | _, [], acc, fs, md => (md, acc, fs)
  | 0, rest, acc, fs, md => (md, rest.reverse ++ acc, fs)
  | fuel + 1, l :: rest, acc, fs, md =>
      if isBlankL l then goFuel fuel rest (l :: acc) fs md
      else
        let stripped := lstripL l
        let indent := indentOf l
        let tr := applyTypos l
        let fs1 := fs ++ tr.2.1
        let md1 := md || tr.2.2
        match tryRule3 stripped indent rest with
        | some p => goFuel fuel p.2 (p.1 :: acc) (fs1 ++ [msgSplitKey stripped]) true
        | none =>
        match tryRule5 stripped indent acc with
        | some p => goFuel fuel rest (p.1 :: p.2) (fs1 ++ [msgOrphanPrev stripped]) true
        | none =>
        match tryRule4 stripped indent rest with
        | some p => goFuel fuel p.2.1 (p.1 :: acc) (fs1 ++ [msgOrphanKey p.2.2]) true
        | none => goFuel fuel rest (tr.1 :: acc) fs1 md1

/-- Python `content.split("\n")`. -/
def splitNL : List Char → List Line
  | [] => [[]]
  | c :: cs =>
      if c = '\n' then [] :: splitNL cs
      else
        match splitNL cs with
        | ln :: rest => (c :: ln) :: rest
        | [] => [[c]]

/-- Python `"\n".join(lines)`. -/
def joinNL : List Line → List Char
  | [] => []
  | [l] => l
  | l :: rest => l ++ '\n' :: joinNL rest

/-- `YAMLSyntaxFixer.fix_yaml_syntax` (source name shortened here):
returns `(was_modified, fixed_content, fixes_applied)`. -/
def fix_yaml (content : String) : Bool × String × List String :=
  let lines := splitNL content.data
  let r := goFuel lines.length lines [] [] false
  (r.1, String.mk (joinNL r.2.1.reverse), r.2.2)

/-! ### Predicates used in claim statements -/

/-- The `apiVersion` of the input, when present and truthy (hence kept by
the resolver), is a string that is non-empty after stripping — i.e. a
value the validator accepts. -/
def apiVersionOk (m : Entries) : Bool :=
  match findVal m "apiVersion" with
  | none => true
  | some v =>
      !truthy v ||
      (match v with
       | .str s => !(pyStrip s).isEmpty
       | _ => false)

/-- Every container entry is a mapping. -/
def containerListOk (v : Val) : Bool :=
  match v with
  | .list cs => cs.all (fun c => match c with | .map _ => true | _ => false)
  | _ => false

/-- Shape conditions under which the resolver cannot raise: `kind` (if
present) is a string, `metadata` (if present) is a mapping, `spec` (if
present) is a mapping, and a present truthy `containers` is a sequence
of mappings. -/
def wellShaped (m : Entries) : Bool :=
  (match findVal m "kind" with
   | none => true
   | some (.str _) => true
   | some _ => false) &&
  (match findVal m "metadata" with
   | none => true
   | some (.map _) => true
   | some _ => false) &&
  (match findVal m "spec" with
   | none => true
   | some (.map sp) =>
       (match findVal sp "containers" with
        | none => true
        | some cv => !truthy cv || containerListOk cv)
   | some _ => false)

/-- For a Pod document, `spec.containers` is present and truthy, so the
resolver repairs the given containers instead of synthesising the
default container (which lacks `imagePullPolicy`). -/
def podContainersProvided (m : Entries) : Bool :=
  match findVal m "kind" with
  | some k =>
      if isStrEq k "Pod" then
        match findVal m "spec" with
        | some (.map sp) =>
            (match findVal sp "containers" with
             | some cv => truthy cv
             | none => false)
        | _ => false
      else true
  | none => true

/-- A line that no recovery-pass rule can touch: free of the typo tokens
and either blank or carrying a colon with non-empty content after it. -/
def cleanLine (l : Line) : Bool :=
  !containsSub (strL "ngin x") l && !containsSub (strL "conts ainer") l &&
  (isBlankL l ||
    (hasColon (lstripL l) && !(pyStripChars (afterFirstColon (lstripL l))).isEmpty))

def allClean (content : String) : Bool := (splitNL content.data).all cleanLine

/-- The three-line corruption pattern of the forward orphaned-value
scenario: `imagePullPolicy:` at indentation `k`. -/
def keyLineIPP (k : Nat) : Line := List.replicate k ' ' ++ strL "imagePullPolicy:"

/-- The orphaned value `IfNotPresent` at indentation `v`. -/
def valueLineINP (v : Nat) : Line := List.replicate v ' ' ++ strL "IfNotPresent"

/-- The repaired line the pattern merges into. -/
def mergedIPP (k : Nat) : Line := List.replicate k ' ' ++ strL "imagePullPolicy: IfNotPresent"

/-! ### Invariant predicates used by the resolver lemmas -/

/-- State of a container after a successful pass of the container loop:
a mapping with truthy `name` and `image` and a present `imagePullPolicy`. -/
def ContainerGood (c : Val) : Prop :=
  ∃ cm, c = Val.map cm ∧
    (∃ nv, findVal cm "name" = some nv ∧ truthy nv = true) ∧
    (∃ iv, findVal cm "image" = some iv ∧ truthy iv = true) ∧
    (findVal cm "imagePullPolicy").isSome = true

/-- State of the metadata mapping after the metadata block: truthy
`name` and a present `namespace`. -/
def MdGood (md : Entries) : Prop :=
  (∃ nv, findVal md "name" = some nv ∧ truthy nv = true) ∧
  (findVal md "namespace").isSome = true

/-! ## Basic lemmas about the mapping operations -/

theorem findVal_setVal_self (m : Entries) (k : String) (v : Val) :
    findVal (setVal m k v) k = some v := by
  induction m with
  | nil => simp [setVal, findVal]
  | cons p rest ih =>
      obtain ⟨k2, w⟩ := p
      by_cases h : k2 = k <;> simp [setVal, findVal, h, ih]

theorem findVal_setVal_ne (m : Entries) (k k2 : String) (v : Val) (h : k2 ≠ k) :
    findVal (setVal m k v) k2 = findVal m k2 := by
  induction m with
  | nil =>
      have h2 : ¬(k = k2) := fun hh => h hh.symm
      simp [setVal, findVal, h2]
  | cons p rest ih =>
      obtain ⟨k3, w⟩ := p
      by_cases h3 : k3 = k
      · subst h3
        have h2 : ¬(k3 = k2) := fun hh => h hh.symm
        simp [setVal, findVal, h2]
      · simp [setVal, findVal, h3, ih]

theorem setVal_of_findVal (m : Entries) (k : String) (v : Val)
    (h : findVal m k = some v) : setVal m k v = m := by
  induction m with
  | nil => simp [findVal] at h
  | cons p rest ih =>
      obtain ⟨k2, w⟩ := p
      by_cases hk : k2 = k
      · subst hk
        simp [findVal] at h
        simp [setVal, h]
      · simp [findVal, hk] at h
        simp [setVal, hk, ih h]

/-! ## Inversion lemmas for the Python-semantics operations -/

theorem pySetItem_ok {v x v2 : Val} {k : String} (h : pySetItem v k x = .ok v2) :
    ∃ mm, v = .map mm ∧ v2 = .map (setVal mm k x) := by
  cases v <;> simp [pySetItem] at h
  exact ⟨_, rfl, h.symm⟩

theorem pyGetItem_ok {v x : Val} {k : String} (h : pyGetItem v k = .ok x) :
    ∃ mm, v = .map mm ∧ findVal mm k = some x := by
  cases v <;> simp [pyGetItem] at h
  case map mm =>
    cases hf : findVal mm k with
    | none => rw [hf] at h; simp at h
    | some y =>
        rw [hf] at h
        simp at h
        exact ⟨mm, rfl, by rw [hf, h]⟩

theorem pyContainsKey_map (mm : Entries) (k : String) :
    pyContainsKey (.map mm) k = .ok (findVal mm k).isSome := rfl

theorem needFill_ok_false {v : Val} {k : String} (h : needFill v k = .ok false) :
    ∃ mm x, v = .map mm ∧ findVal mm k = some x ∧ truthy x = true := by
  unfold needFill at h
  cases hc : pyContainsKey v k with
  | error e => rw [hc] at h; simp at h
  | ok c =>
      rw [hc] at h
      cases c with
      | false => simp at h
      | true =>
          simp only [if_true] at h
          cases hx : pyDictGet v k with
          | error e => rw [hx] at h; simp at h
          | ok x =>
              rw [hx] at h
              simp at h
              cases v <;> simp [pyDictGet] at hx
              case map mm =>
                simp [pyContainsKey] at hc
                cases hf : findVal mm k with
                | none => rw [hf] at hc; simp at hc
                | some y =>
                    refine ⟨mm, y, rfl, hf, ?_⟩
                    rw [hf] at hx
                    simp at hx
                    rw [← hx] at h
                    simpa using h

theorem needFill_found_truthy {mm : Entries} {k : String} {x : Val}
    (hf : findVal mm k = some x) (ht : truthy x = true) :
    needFill (.map mm) k = .ok false := by
  unfold needFill
  simp [pyContainsKey, pyDictGet, hf, ht]

theorem ensureKey_ok_cases {v v2 : Val} {k : String} {d : Val} {msg : String}
    {f : List String} (h : ensureKey v k d msg = .ok (v2, f)) :
    (pyContainsKey v k = .ok true ∧ v2 = v ∧ f = []) ∨
    (pyContainsKey v k = .ok false ∧ ∃ mm, v = .map mm ∧
      v2 = .map (setVal mm k d) ∧ f = [msg]) := by
  unfold ensureKey at h
  cases hc : pyContainsKey v k with
  | error e => rw [hc] at h; simp at h
  | ok c =>
      rw [hc] at h
      cases c with
      | true =>
          simp only [if_true] at h
          simp at h
          exact Or.inl ⟨rfl, h.1.symm, h.2⟩
      | false =>
          simp only [Bool.false_eq_true, if_false] at h
          cases hw : pySetItem v k d with
          | error e => rw [hw] at h; simp at h
          | ok w =>
              rw [hw] at h
              simp at h
              obtain ⟨h1, h2⟩ := h
              obtain ⟨mm, hv, hw2⟩ := pySetItem_ok hw
              exact Or.inr ⟨rfl, mm, hv, by rw [← h1]; exact hw2, h2.symm⟩

theorem ensureKey_noop {v : Val} {k : String} {d : Val} {msg : String}
    (h : pyContainsKey v k = .ok true) : ensureKey v k d msg = .ok (v, []) := by
  unfold ensureKey
  rw [h]
  simp

/-! ## Lemmas about the apiVersion step -/

theorem fixApiVersion_post (m : Entries) :
    ∃ v, findVal (fixApiVersion m).1 "apiVersion" = some v ∧ truthy v = true ∧
      (v = .str "v1" ∨ findVal m "apiVersion" = some v) := by
  unfold fixApiVersion
  cases hf : findVal m "apiVersion" with
  | none =>
      exact ⟨.str "v1", by simp [findVal_setVal_self], by decide, Or.inl rfl⟩
  | some v =>
      cases ht : truthy v with
      | true => exact ⟨v, by simp [ht, hf], ht, Or.inr rfl⟩
      | false =>
          exact ⟨.str "v1", by simp [ht, findVal_setVal_self], by decide, Or.inl rfl⟩

theorem fixApiVersion_frame (m : Entries) (k : String) (h : k ≠ "apiVersion") :
    findVal (fixApiVersion m).1 k = findVal m k := by
  unfold fixApiVersion
  cases hf : findVal m "apiVersion" with
  | none => simp [findVal_setVal_ne _ _ _ _ h]
  | some v =>
      cases ht : truthy v with
      | true => simp [ht]
      | false => simp [ht, findVal_setVal_ne _ _ _ _ h]

theorem fixApiVersion_noop {m : Entries} {v : Val}
    (hf : findVal m "apiVersion" = some v) (ht : truthy v = true) :
    fixApiVersion m = (m, []) := by
  unfold fixApiVersion
  rw [hf]
  simp [ht]

/-! ## Lemmas about the metadata block -/

theorem truthy_append_default (low : String) :
    truthy (.str (low ++ "-default")) = true := by
  simp [truthy, String.data_append]

theorem isSome_of_contains_map {mm : Entries} {k : String}
    (h : pyContainsKey (.map mm) k = .ok true) : (findVal mm k).isSome = true := by
  rw [pyContainsKey_map] at h
  injection h

theorem needFill_map_ok (mm : Entries) (k : String) :
    ∃ b, needFill (.map mm) k = .ok b := by
  unfold needFill
  rw [pyContainsKey_map]
  cases hf : (findVal mm k).isSome with
  | false => exact ⟨true, by simp⟩
  | true => exact ⟨!truthy ((findVal mm k).getD .null), by simp [pyDictGet]⟩

theorem ensureKey_map_ok (mm : Entries) (k : String) (d : Val) (msg : String) :
    ∃ mm2 f, ensureKey (.map mm) k d msg = .ok (.map mm2, f) := by
  unfold ensureKey
  rw [pyContainsKey_map]
  cases hf : (findVal mm k).isSome with
  | true => exact ⟨mm, [], by simp⟩
  | false => exact ⟨setVal mm k d, [msg], by simp [pySetItem]⟩

/-- After a successful `namespace` step on a metadata mapping with a good
name, the result is a good metadata mapping. -/
theorem ensureKey_namespace_good {mdv : Val} {mm : Entries} {r2 : Val × List String}
    (hmd : mdv = .map mm)
    (hname : ∃ nv, findVal mm "name" = some nv ∧ truthy nv = true)
    (hE : ensureKey mdv "namespace" (.str "default") msgAddedNamespace = .ok r2) :
    ∃ md, r2.1 = Val.map md ∧ MdGood md := by
  rcases ensureKey_ok_cases hE with ⟨hc, hv2, _⟩ | ⟨_, mm2, hvm, hv2, _⟩
  · subst hmd
    exact ⟨mm, by rw [hv2], hname, isSome_of_contains_map hc⟩
  · have hmm : mm2 = mm := by
      rw [hmd] at hvm
      injection hvm with h2
      exact h2.symm
    subst hmm
    refine ⟨setVal mm2 "namespace" (.str "default"), by rw [hv2], ?_, ?_⟩
    · obtain ⟨nv, hn, ht⟩ := hname
      refine ⟨nv, ?_, ht⟩
      rw [findVal_setVal_ne _ _ _ _ (by decide)]
      exact hn
    · simp [findVal_setVal_self]

theorem fix_metadata_body_ok {m : Entries} {kind md0 : Val} {f0 f : List String}
    {m2 : Entries} (h : fix_metadata_body m kind md0 f0 = .ok (m2, f)) :
    ∃ md, m2 = setVal m "metadata" (.map md) ∧ MdGood md := by
  unfold fix_metadata_body at h
  cases hN : needFill md0 "name" with
  | error e => rw [hN] at h; simp at h
  | ok needN =>
      rw [hN] at h
      cases needN with
      | true =>
          simp only [if_true] at h
          cases hL : pyLower kind with
          | error e => rw [hL] at h; simp at h
          | ok low =>
              rw [hL] at h
              dsimp only at h
              cases hS : pySetItem md0 "name" (.str (low ++ "-default")) with
              | error e => rw [hS] at h; simp at h
              | ok md2 =>
                  rw [hS] at h
                  simp only at h
                  obtain ⟨mm, hmd0, hmd2⟩ := pySetItem_ok hS
                  cases hE : ensureKey md2 "namespace" (.str "default") msgAddedNamespace with
                  | error e => rw [hE] at h; simp at h
                  | ok r2 =>
                      rw [hE] at h
                      simp at h
                      obtain ⟨md, hr2, hgood⟩ :=
                        @ensureKey_namespace_good md2
                          (setVal mm "name" (.str (low ++ "-default"))) r2 hmd2
                          ⟨.str (low ++ "-default"), findVal_setVal_self _ _ _,
                            truthy_append_default low⟩
                          hE
                      exact ⟨md, by rw [← h.1, hr2], hgood⟩
      | false =>
          simp only [Bool.false_eq_true, if_false] at h
          obtain ⟨mm, x, hmd0, hx, htx⟩ := needFill_ok_false hN
          cases hE : ensureKey md0 "namespace" (.str "default") msgAddedNamespace with
          | error e => rw [hE] at h; simp at h
          | ok r2 =>
              rw [hE] at h
              simp at h
              obtain ⟨md, hr2, hgood⟩ :=
                ensureKey_namespace_good hmd0 ⟨x, hx, htx⟩ hE
              exact ⟨md, by rw [← h.1, hr2], hgood⟩

theorem fix_metadata_ok {m : Entries} {kind : Val} {m2 : Entries} {f : List String}
    (h : fix_metadata m kind = .ok (m2, f)) :
    ∃ md, m2 = setVal m "metadata" (.map md) ∧ MdGood md := by
  unfold fix_metadata at h
  cases hmd : findVal m "metadata" with
  | none => rw [hmd] at h; exact fix_metadata_body_ok h
  | some mv => rw [hmd] at h; exact fix_metadata_body_ok h

theorem fix_metadata_noop {m : Entries} {kind : Val} {md : Entries} {nv nsv : Val}
    (hmd : findVal m "metadata" = some (.map md))
    (hn : findVal md "name" = some nv) (ht : truthy nv = true)
    (hns : findVal md "namespace" = some nsv) :
    fix_metadata m kind = .ok (m, []) := by
  unfold fix_metadata
  rw [hmd]
  dsimp only
  unfold fix_metadata_body
  rw [needFill_found_truthy hn ht]
  have hc : pyContainsKey (Val.map md) "namespace" = .ok true := by
    rw [pyContainsKey_map, hns]
    rfl
  simp [ensureKey_noop hc, setVal_of_findVal _ _ _ hmd]

theorem fix_metadata_body_total (m : Entries) (s : String) (mm : Entries)
    (f0 : List String) : ∃ r, fix_metadata_body m (.str s) (.map mm) f0 = .ok r := by
  unfold fix_metadata_body
  obtain ⟨b, hb⟩ := needFill_map_ok mm "name"
  rw [hb]
  cases b with
  | true =>
      simp only [if_true]
      dsimp [pyLower, pySetItem]
      obtain ⟨mm2, f2, hE⟩ := ensureKey_map_ok
        (setVal mm "name" (.str (String.mk (s.data.map charLower) ++ "-default")))
        "namespace" (.str "default") msgAddedNamespace
      rw [hE]
      exact ⟨_, rfl⟩
  | false =>
      simp only [Bool.false_eq_true, if_false]
      obtain ⟨mm2, f2, hE⟩ := ensureKey_map_ok mm "namespace" (.str "default") msgAddedNamespace
      rw [hE]
      exact ⟨_, rfl⟩

/-! ## Lemmas about the container loop -/

theorem truthy_container_name (i : Nat) :
    truthy (.str ("container-" ++ toString i)) = true := by
  simp [truthy, String.data_append]

theorem fillField_ok_full {c c2 : Val} {key dflt msg : String} {f : List String}
    (h : fillField c key dflt msg = .ok (c2, f)) :
    ∃ cm cm2, c = .map cm ∧ c2 = .map cm2 ∧
      (∃ v, findVal cm2 key = some v ∧ (truthy (.str dflt) = true → truthy v = true)) ∧
      (∀ k2, k2 ≠ key → findVal cm2 k2 = findVal cm k2) := by
  unfold fillField at h
  cases hN : needFill c key with
  | error e => rw [hN] at h; simp at h
  | ok needN =>
      rw [hN] at h
      cases needN with
      | true =>
          simp only [if_true] at h
          cases hS : pySetItem c key (.str dflt) with
          | error e => rw [hS] at h; simp at h
          | ok cNew =>
              rw [hS] at h
              simp at h
              obtain ⟨cm, hc, hcNew⟩ := pySetItem_ok hS
              refine ⟨cm, setVal cm key (.str dflt), hc, ?_, ?_, ?_⟩
              · rw [← h.1, hcNew]
              · exact ⟨.str dflt, findVal_setVal_self _ _ _, fun ht => ht⟩
              · intro k2 hk2
                exact findVal_setVal_ne _ _ _ _ hk2
      | false =>
          simp only [Bool.false_eq_true, if_false] at h
          simp at h
          obtain ⟨cm, x, hc, hx, htx⟩ := needFill_ok_false hN
          refine ⟨cm, cm, hc, by rw [← h.1, hc], ⟨x, hx, fun _ => htx⟩, fun _ _ => rfl⟩

theorem fillField_noop {cm : Entries} {key : String} {v : Val} (dflt msg : String)
    (hf : findVal cm key = some v) (ht : truthy v = true) :
    fillField (.map cm) key dflt msg = .ok (.map cm, []) := by
  unfold fillField
  rw [needFill_found_truthy hf ht]
  rfl

theorem fillField_total_map (cm : Entries) (key dflt msg : String) :
    ∃ r, fillField (.map cm) key dflt msg = .ok r := by
  unfold fillField
  obtain ⟨b, hb⟩ := needFill_map_ok cm key
  rw [hb]
  cases b with
  | true => exact ⟨_, rfl⟩
  | false => exact ⟨_, rfl⟩

theorem fillField_str_err (s key dflt msg : String) :
    ∃ e, fillField (.str s) key dflt msg = .error e := by
  unfold fillField needFill
  cases hc : containsSub key.data s.data with
  | true =>
      refine ⟨"AttributeError: no attribute get", ?_⟩
      simp [pyContainsKey, hc, pyDictGet]
  | false =>
      refine ⟨"TypeError: value does not support item assignment", ?_⟩
      simp [pyContainsKey, hc, pySetItem]

theorem fix_container_ok {i : Nat} {c c2 : Val} {f : List String}
    (h : fix_container i c = .ok (c2, f)) : ContainerGood c2 := by
  unfold fix_container at h
  cases h1 : fillField c "name" ("container-" ++ toString i)
      (msgFixedContainerName i ("container-" ++ toString i)) with
  | error e => rw [h1] at h; simp at h
  | ok r1 =>
      obtain ⟨r1v, r1f⟩ := r1
      rw [h1] at h
      dsimp only at h
      obtain ⟨cm0, cm1, hc0, hc1, hn1, hfr1⟩ := fillField_ok_full h1
      cases h2 : fillField r1v "image" "nginx:latest" (msgAddedImage i) with
      | error e => rw [h2] at h; simp at h
      | ok r2 =>
          obtain ⟨r2v, r2f⟩ := r2
          rw [h2] at h
          dsimp only at h
          obtain ⟨cm1b, cm2, hc1b, hc2, hi2, hfr2⟩ := fillField_ok_full h2
          have hcm : cm1 = cm1b := by
            rw [hc1] at hc1b
            injection hc1b
          subst hcm
          obtain ⟨nv, hnv, hnvt⟩ := hn1
          obtain ⟨iv, hiv, hivt⟩ := hi2
          have hnv2 : findVal cm2 "name" = some nv := by
            rw [hfr2 "name" (by decide)]
            exact hnv
          have hnvt2 : truthy nv = true := hnvt (truthy_container_name i)
          have hivt2 : truthy iv = true := hivt (by decide)
          cases h3 : pyContainsKey r2v "imagePullPolicy" with
          | error e => rw [h3] at h; simp at h
          | ok cP =>
              rw [h3] at h
              dsimp only at h
              cases cP with
              | false =>
                  simp only [Bool.not_false, if_true] at h
                  cases h4 : pySetItem r2v "imagePullPolicy" (.str "IfNotPresent") with
                  | error e => rw [h4] at h; simp at h
                  | ok c3 =>
                      rw [h4] at h
                      simp at h
                      obtain ⟨cm2b, hc2b, hc3⟩ := pySetItem_ok h4
                      have hcm2 : cm2 = cm2b := by
                        rw [hc2] at hc2b
                        injection hc2b
                      subst hcm2
                      refine ⟨setVal cm2 "imagePullPolicy" (.str "IfNotPresent"),
                        by rw [← h.1, hc3], ?_, ?_, ?_⟩
                      · exact ⟨nv, by
                          rw [findVal_setVal_ne _ _ _ _ (by decide)]
                          exact hnv2, hnvt2⟩
                      · exact ⟨iv, by
                          rw [findVal_setVal_ne _ _ _ _ (by decide)]
                          exact hiv, hivt2⟩
                      · simp [findVal_setVal_self]
              | true =>
                  simp only [Bool.not_true, Bool.false_eq_true, if_false] at h
                  simp at h
                  rw [hc2] at h3
                  refine ⟨cm2, by rw [← h.1, hc2], ⟨nv, hnv2, hnvt2⟩,
                    ⟨iv, hiv, hivt2⟩, isSome_of_contains_map h3⟩

theorem fix_container_noop {i : Nat} {c : Val} (hg : ContainerGood c) :
    fix_container i c = .ok (c, []) := by
  obtain ⟨cm, hc, ⟨nv, hn, hnt⟩, ⟨iv, hi, hit⟩, hp⟩ := hg
  subst hc
  unfold fix_container
  rw [fillField_noop _ _ hn hnt]
  dsimp only
  rw [fillField_noop _ _ hi hit]
  dsimp only
  have hck : pyContainsKey (Val.map cm) "imagePullPolicy" = .ok true := by
    rw [pyContainsKey_map, hp]
  rw [hck]
  simp

theorem fix_container_total_map (i : Nat) (cm : Entries) :
    ∃ r, fix_container i (.map cm) = .ok r := by
  unfold fix_container
  obtain ⟨r1, h1⟩ := fillField_total_map cm "name" ("container-" ++ toString i)
    (msgFixedContainerName i ("container-" ++ toString i))
  obtain ⟨r1v, r1f⟩ := r1
  obtain ⟨cm0, cm1, _, hc1, _, _⟩ := fillField_ok_full h1
  subst hc1
  rw [h1]
  dsimp only
  obtain ⟨r2, h2⟩ := fillField_total_map cm1 "image" "nginx:latest" (msgAddedImage i)
  obtain ⟨r2v, r2f⟩ := r2
  obtain ⟨cm1b, cm2, _, hc2, _, _⟩ := fillField_ok_full h2
  subst hc2
  rw [h2]
  dsimp only
  rw [pyContainsKey_map]
  cases hii : (findVal cm2 "imagePullPolicy").isSome with
  | true => exact ⟨_, rfl⟩
  | false => exact ⟨_, rfl⟩

theorem fix_container_str_err (i : Nat) (s : String) :
    ∃ e, fix_container i (.str s) = .error e := by
  unfold fix_container
  obtain ⟨e, he⟩ := fillField_str_err s "name" ("container-" ++ toString i)
    (msgFixedContainerName i ("container-" ++ toString i))
  rw [he]
  exact ⟨e, rfl⟩

theorem fixContainers_ok {i : Nat} {cs cs2 : List Val} {f : List String}
    (h : fixContainers i cs = .ok (cs2, f)) :
    cs2.length = cs.length ∧ ∀ c ∈ cs2, ContainerGood c := by
  induction cs generalizing i cs2 f with
  | nil =>
      unfold fixContainers at h
      simp at h
      obtain ⟨h1, h2⟩ := h
      subst h1
      simp
  | cons c rest ih =>
      unfold fixContainers at h
      cases h1 : fix_container i c with
      | error e => rw [h1] at h; simp at h
      | ok r =>
          obtain ⟨rv, rf⟩ := r
          rw [h1] at h
          dsimp only at h
          cases h2 : fixContainers (i + 1) rest with
          | error e => rw [h2] at h; simp at h
          | ok rs =>
              obtain ⟨rsv, rsf⟩ := rs
              rw [h2] at h
              simp at h
              obtain ⟨hlen, hall⟩ := ih h2
              constructor
              · rw [← h.1]
                simp [hlen]
              · intro c3 hc3
                rw [← h.1] at hc3
                rcases List.mem_cons.mp hc3 with hc3 | hc3
                · subst hc3
                  exact fix_container_ok h1
                · exact hall c3 hc3

theorem fixContainers_noop {cs : List Val} (hall : ∀ c ∈ cs, ContainerGood c)
    (i : Nat) : fixContainers i cs = .ok (cs, []) := by
  induction cs generalizing i with
  | nil => rfl
  | cons c rest ih =>
      unfold fixContainers
      rw [fix_container_noop (hall c (by simp))]
      dsimp only
      rw [ih (fun c2 hc2 => hall c2 (by simp [hc2])) (i + 1)]
      rfl

theorem fixContainers_total_maps {cs : List Val}
    (hall : ∀ c ∈ cs, ∃ mm, c = Val.map mm) (i : Nat) :
    ∃ r, fixContainers i cs = .ok r := by
  induction cs generalizing i with
  | nil => exact ⟨_, rfl⟩
  | cons c rest ih =>
      obtain ⟨mm, hmm⟩ := hall c (by simp)
      subst hmm
      obtain ⟨r1, h1⟩ := fix_container_total_map i mm
      obtain ⟨r2, h2⟩ := ih (fun c2 hc2 => hall c2 (by simp [hc2])) (i + 1)
      unfold fixContainers
      rw [h1]
      dsimp only
      rw [h2]
      exact ⟨_, rfl⟩

theorem fixContainers_head_str_err (i : Nat) (s : String) (rest : List Val) :
    ∃ e, fixContainers i (.str s :: rest) = .error e := by
  obtain ⟨e, he⟩ := fix_container_str_err i s
  unfold fixContainers
  rw [he]
  exact ⟨e, rfl⟩

/-! ## More inversion lemmas -/

theorem needFillItem_ok_false {v : Val} {k : String} (h : needFillItem v k = .ok false) :
    ∃ mm x, v = .map mm ∧ findVal mm k = some x ∧ truthy x = true := by
  unfold needFillItem at h
  cases hc : pyContainsKey v k with
  | error e => rw [hc] at h; simp at h
  | ok c =>
      rw [hc] at h
      cases c with
      | false => simp at h
      | true =>
          simp only [if_true] at h
          cases hx : pyGetItem v k with
          | error e => rw [hx] at h; simp at h
          | ok x =>
              rw [hx] at h
              simp at h
              obtain ⟨mm, hv, hf⟩ := pyGetItem_ok hx
              exact ⟨mm, x, hv, hf, h⟩

theorem needFillItem_found_truthy {mm : Entries} {k : String} {x : Val}
    (hf : findVal mm k = some x) (ht : truthy x = true) :
    needFillItem (.map mm) k = .ok false := by
  unfold needFillItem
  simp [pyContainsKey, pyGetItem, hf, ht]

theorem ensureKey_post_contains {v v2 : Val} {k : String} {d : Val} {msg : String}
    {f : List String} (h : ensureKey v k d msg = .ok (v2, f)) :
    pyContainsKey v2 k = .ok true := by
  rcases ensureKey_ok_cases h with ⟨hc, hv2, _⟩ | ⟨_, mm, hv, hv2, _⟩
  · rw [hv2]; exact hc
  · rw [hv2, pyContainsKey_map, findVal_setVal_self]
    rfl

theorem ensureKey_preserves_contains {v v2 : Val} {k k2 : String} {d : Val}
    {msg : String} {f : List String} (h : ensureKey v k d msg = .ok (v2, f))
    (hc : pyContainsKey v k2 = .ok true) : pyContainsKey v2 k2 = .ok true := by
  rcases ensureKey_ok_cases h with ⟨_, hv2, _⟩ | ⟨_, mm, hv, hv2, _⟩
  · rw [hv2]; exact hc
  · subst hv
    have hs := isSome_of_contains_map hc
    rw [hv2, pyContainsKey_map]
    by_cases hk : k2 = k
    · subst hk
      rw [findVal_setVal_self]
      rfl
    · rw [findVal_setVal_ne _ _ _ _ hk, hs]

theorem ensureKey_ok_map {mm : Entries} {v2 : Val} {k : String} {d : Val}
    {msg : String} {f : List String} (h : ensureKey (.map mm) k d msg = .ok (v2, f)) :
    ∃ mm2, v2 = Val.map mm2 ∧ (∀ k2, k2 ≠ k → findVal mm2 k2 = findVal mm k2) ∧
      (findVal mm2 k).isSome = true := by
  rcases ensureKey_ok_cases h with ⟨hc, hv2, _⟩ | ⟨_, mm0, hv, hv2, _⟩
  · exact ⟨mm, hv2, fun _ _ => rfl, isSome_of_contains_map hc⟩
  · have hmm : mm = mm0 := by injection hv
    subst hmm
    refine ⟨setVal mm k d, hv2, fun k2 hk2 => findVal_setVal_ne _ _ _ _ hk2, ?_⟩
    rw [findVal_setVal_self]
    rfl

/-! ## Lemmas about the Pod spec fixer -/

theorem truthy_list_ne_nil {cs : List Val} (h : cs ≠ []) :
    truthy (.list cs) = true := by
  cases cs with
  | nil => exact absurd rfl h
  | cons a l => rfl

theorem fix_pod_spec_noop {m : Entries} {sp : Entries} {cs : List Val}
    (hsp : findVal m "spec" = some (.map sp))
    (hcs : findVal sp "containers" = some (.list cs))
    (hne : cs ≠ [])
    (hall : ∀ c ∈ cs, ContainerGood c)
    (hrp : (findVal sp "restartPolicy").isSome = true) :
    fix_pod_spec m = .ok (m, []) := by
  unfold fix_pod_spec
  rw [hsp]
  dsimp only
  unfold fix_pod_body
  rw [needFillItem_found_truthy hcs (truthy_list_ne_nil hne)]
  dsimp only
  rw [show pyGetItem (Val.map sp) "containers" = .ok (.list cs) by
    simp [pyGetItem, hcs]]
  dsimp only [pyIterate]
  rw [fixContainers_noop hall 0]
  dsimp only
  rw [show pySetItem (Val.map sp) "containers" (.list cs) = .ok (.map sp) by
    simp [pySetItem, setVal_of_findVal _ _ _ hcs]]
  simp only [Bool.false_eq_true, if_false]
  rw [ensureKey_noop (by rw [pyContainsKey_map, hrp])]
  dsimp only
  rw [setVal_of_findVal _ _ _ hsp]
  rfl

theorem fix_pod_body_first {m : Entries} {sp : Entries} {cv : Val} {m2 : Entries}
    {f f0 : List String}
    (hcv : findVal sp "containers" = some cv) (htv : truthy cv = true)
    (h : fix_pod_body m (.map sp) f0 = .ok (m2, f)) :
    ∃ sp2 cs2, m2 = setVal m "spec" (.map sp2) ∧
      findVal sp2 "containers" = some (.list cs2) ∧ cs2 ≠ [] ∧
      (∀ c ∈ cs2, ContainerGood c) ∧ (findVal sp2 "restartPolicy").isSome = true := by
  unfold fix_pod_body at h
  rw [needFillItem_found_truthy hcv htv] at h
  dsimp only at h
  rw [show pyGetItem (Val.map sp) "containers" = .ok cv by simp [pyGetItem, hcv]] at h
  dsimp only at h
  cases cv with
  | list l =>
      dsimp only [pyIterate] at h
      have hlne : l ≠ [] := by
        intro he
        subst he
        simp [truthy] at htv
      cases hfc : fixContainers 0 l with
      | error e => rw [hfc] at h; simp at h
      | ok r =>
          obtain ⟨cs2, fcs⟩ := r
          rw [hfc] at h
          dsimp only [pySetItem] at h
          simp only [Bool.false_eq_true, if_false] at h
          cases hE : ensureKey (.map (setVal sp "containers" (.list cs2)))
              "restartPolicy" (.str "Always") msgAddedRestartPolicy with
          | error e => rw [hE] at h; simp at h
          | ok r2 =>
              obtain ⟨r2v, r2f⟩ := r2
              rw [hE] at h
              simp at h
              obtain ⟨hlen, hall⟩ := fixContainers_ok hfc
              obtain ⟨sp2, hr2v, hpres, hrp⟩ := ensureKey_ok_map hE
              refine ⟨sp2, cs2, ?_, ?_, ?_, hall, hrp⟩
              · rw [← h.1, hr2v]
              · rw [hpres "containers" (by decide), findVal_setVal_self]
              · intro he
                subst he
                simp at hlen
                exact hlne (List.length_eq_zero.mp hlen.symm)
  | str s =>
      dsimp only [pyIterate] at h
      have hsd : s.data ≠ [] := by simpa [truthy] using htv
      cases hd : s.data with
      | nil => exact absurd hd hsd
      | cons a l2 =>
          rw [hd, List.map_cons] at h
          obtain ⟨e, he⟩ := fixContainers_head_str_err 0 (String.mk [a])
            (l2.map (fun c => Val.str (String.mk [c])))
          rw [he] at h
          simp at h
  | map mm =>
      dsimp only [pyIterate] at h
      have hmm : mm ≠ [] := by simpa [truthy] using htv
      cases hd : mm with
      | nil => exact absurd hd hmm
      | cons p rest =>
          rw [hd, List.map_cons] at h
          obtain ⟨e, he⟩ := fixContainers_head_str_err 0 p.1
            (rest.map (fun q => Val.str q.1))
          rw [he] at h
          simp at h
  | int n => simp [pyIterate] at h
  | bool b => simp [pyIterate] at h
  | null => simp [pyIterate] at h

theorem fix_pod_spec_second {m m2 : Entries} {sp : Entries} {cv : Val} {f : List String}
    (hsp : findVal m "spec" = some (.map sp))
    (hcv : findVal sp "containers" = some cv) (htv : truthy cv = true)
    (h : fix_pod_spec m = .ok (m2, f)) :
    fix_pod_spec m2 = .ok (m2, []) := by
  unfold fix_pod_spec at h
  rw [hsp] at h
  dsimp only at h
  obtain ⟨sp2, cs2, hm2, hc2, hne2, hall2, hrp2⟩ := fix_pod_body_first hcv htv h
  subst hm2
  exact fix_pod_spec_noop (findVal_setVal_self _ _ _) hc2 hne2 hall2 hrp2

/-! ## Lemmas about the Deployment and Service spec fixers -/

theorem fix_deployment_body_ok {m m2 : Entries} {sp0 : Val} {f0 f : List String}
    (h : fix_deployment_body m sp0 f0 = .ok (m2, f)) :
    ∃ spv, m2 = setVal m "spec" spv ∧ pyContainsKey spv "replicas" = .ok true ∧
      pyContainsKey spv "selector" = .ok true ∧
      pyContainsKey spv "template" = .ok true := by
  unfold fix_deployment_body at h
  cases h1 : ensureKey sp0 "replicas" (.int 1) msgAddedReplicas with
  | error e => rw [h1] at h; simp at h
  | ok r1 =>
      obtain ⟨r1v, r1f⟩ := r1
      rw [h1] at h
      dsimp only at h
      cases h2 : ensureKey r1v "selector" defaultDeploySelector msgAddedSelector with
      | error e => rw [h2] at h; simp at h
      | ok r2 =>
          obtain ⟨r2v, r2f⟩ := r2
          rw [h2] at h
          dsimp only at h
          cases h3 : ensureKey r2v "template" defaultTemplate msgAddedTemplate with
          | error e => rw [h3] at h; simp at h
          | ok r3 =>
              obtain ⟨r3v, r3f⟩ := r3
              rw [h3] at h
              simp at h
              refine ⟨r3v, by rw [← h.1], ?_, ?_, ensureKey_post_contains h3⟩
              · exact ensureKey_preserves_contains h3
                  (ensureKey_preserves_contains h2 (ensureKey_post_contains h1))
              · exact ensureKey_preserves_contains h3 (ensureKey_post_contains h2)

theorem fix_deployment_noop {m : Entries} {spv : Val}
    (hsp : findVal m "spec" = some spv)
    (h1 : pyContainsKey spv "replicas" = .ok true)
    (h2 : pyContainsKey spv "selector" = .ok true)
    (h3 : pyContainsKey spv "template" = .ok true) :
    fix_deployment_spec m = .ok (m, []) := by
  unfold fix_deployment_spec
  rw [hsp]
  dsimp only
  unfold fix_deployment_body
  rw [ensureKey_noop h1]
  dsimp only
  rw [ensureKey_noop h2]
  dsimp only
  rw [ensureKey_noop h3]
  dsimp only
  rw [setVal_of_findVal _ _ _ hsp]
  rfl

theorem fix_deployment_spec_second {m m2 : Entries} {f : List String}
    (h : fix_deployment_spec m = .ok (m2, f)) :
    fix_deployment_spec m2 = .ok (m2, []) := by
  unfold fix_deployment_spec at h
  cases hsp : findVal m "spec" with
  | none =>
      rw [hsp] at h
      obtain ⟨spv, hm2, c1, c2, c3⟩ := fix_deployment_body_ok h
      subst hm2
      exact fix_deployment_noop (findVal_setVal_self _ _ _) c1 c2 c3
  | some v =>
      rw [hsp] at h
      obtain ⟨spv, hm2, c1, c2, c3⟩ := fix_deployment_body_ok h
      subst hm2
      exact fix_deployment_noop (findVal_setVal_self _ _ _) c1 c2 c3

theorem fix_service_body_ok {m m2 : Entries} {sp0 : Val} {f0 f : List String}
    (h : fix_service_body m sp0 f0 = .ok (m2, f)) :
    ∃ spm pv, m2 = setVal m "spec" (.map spm) ∧
      pyContainsKey (.map spm) "selector" = .ok true ∧
      findVal spm "ports" = some pv ∧ truthy pv = true := by
  unfold fix_service_body at h
  cases h1 : ensureKey sp0 "selector" (.map [("app", .str "default")]) msgAddedSelector with
  | error e => rw [h1] at h; simp at h
  | ok r1 =>
      obtain ⟨r1v, r1f⟩ := r1
      rw [h1] at h
      dsimp only at h
      cases h2 : needFillItem r1v "ports" with
      | error e => rw [h2] at h; simp at h
      | ok needP =>
          rw [h2] at h
          cases needP with
          | true =>
              simp only [if_true] at h
              cases h3 : pySetItem r1v "ports" defaultPorts with
              | error e => rw [h3] at h; simp at h
              | ok sp2 =>
                  rw [h3] at h
                  simp at h
                  obtain ⟨rm, hr1v, hsp2⟩ := pySetItem_ok h3
                  refine ⟨setVal rm "ports" defaultPorts, defaultPorts,
                    by rw [← h.1, hsp2], ?_, findVal_setVal_self _ _ _, by decide⟩
                  have hsel := ensureKey_post_contains h1
                  rw [hr1v] at hsel
                  have hs := isSome_of_contains_map hsel
                  rw [pyContainsKey_map]
                  rw [findVal_setVal_ne _ _ _ _ (by decide), hs]
          | false =>
              simp only [Bool.false_eq_true, if_false] at h
              simp at h
              obtain ⟨rm, pv, hr1v, hports, hpt⟩ := needFillItem_ok_false h2
              refine ⟨rm, pv, by rw [← h.1, hr1v], ?_, hports, hpt⟩
              have hsel := ensureKey_post_contains h1
              rw [hr1v] at hsel
              exact hsel

theorem fix_service_noop {m : Entries} {spm : Entries} {pv : Val}
    (hsp : findVal m "spec" = some (.map spm))
    (hsel : pyContainsKey (.map spm) "selector" = .ok true)
    (hports : findVal spm "ports" = some pv) (hpt : truthy pv = true) :
    fix_service_spec m = .ok (m, []) := by
  unfold fix_service_spec
  rw [hsp]
  dsimp only
  unfold fix_service_body
  rw [ensureKey_noop hsel]
  dsimp only
  rw [needFillItem_found_truthy hports hpt]
  simp only [Bool.false_eq_true, if_false]
  rw [setVal_of_findVal _ _ _ hsp]
  rfl

theorem fix_service_spec_second {m m2 : Entries} {f : List String}
    (h : fix_service_spec m = .ok (m2, f)) :
    fix_service_spec m2 = .ok (m2, []) := by
  unfold fix_service_spec at h
  cases hsp : findVal m "spec" with
  | none =>
      rw [hsp] at h
      obtain ⟨spm, pv, hm2, c1, c2, c3⟩ := fix_service_body_ok h
      subst hm2
      exact fix_service_noop (findVal_setVal_self _ _ _) c1 c2 c3
  | some v =>
      rw [hsp] at h
      obtain ⟨spm, pv, hm2, c1, c2, c3⟩ := fix_service_body_ok h
      subst hm2
      exact fix_service_noop (findVal_setVal_self _ _ _) c1 c2 c3

theorem fix_service_spec_ok {m m2 : Entries} {f : List String}
    (h : fix_service_spec m = .ok (m2, f)) : ∃ x, m2 = setVal m "spec" x := by
  unfold fix_service_spec at h
  cases hsp : findVal m "spec" with
  | none =>
      rw [hsp] at h
      obtain ⟨spm, pv, hm2, _, _, _⟩ := fix_service_body_ok h
      exact ⟨.map spm, hm2⟩
  | some v =>
      rw [hsp] at h
      obtain ⟨spm, pv, hm2, _, _, _⟩ := fix_service_body_ok h
      exact ⟨.map spm, hm2⟩

theorem fix_deployment_spec_ok {m m2 : Entries} {f : List String}
    (h : fix_deployment_spec m = .ok (m2, f)) : ∃ x, m2 = setVal m "spec" x := by
  unfold fix_deployment_spec at h
  cases hsp : findVal m "spec" with
  | none =>
      rw [hsp] at h
      obtain ⟨spv, hm2, _, _, _⟩ := fix_deployment_body_ok h
      exact ⟨spv, hm2⟩
  | some v =>
      rw [hsp] at h
      obtain ⟨spv, hm2, _, _, _⟩ := fix_deployment_body_ok h
      exact ⟨spv, hm2⟩

theorem fix_pod_body_shape {m : Entries} {sp0 : Val} {f0 f : List String} {m2 : Entries}
    (h : fix_pod_body m sp0 f0 = .ok (m2, f)) : ∃ x, m2 = setVal m "spec" x := by
  unfold fix_pod_body at h
  cases hN : needFillItem sp0 "containers" with
  | error e => rw [hN] at h; simp at h
  | ok need =>
      rw [hN] at h
      dsimp only at h
      cases need with
      | true =>
          simp only [if_true] at h
          cases hS : pySetItem sp0 "containers" defaultContainers with
          | error e => rw [hS] at h; simp at h
          | ok sp =>
              rw [hS] at h
              dsimp only at h
              cases hE : ensureKey sp "restartPolicy" (.str "Always")
                  msgAddedRestartPolicy with
              | error e => rw [hE] at h; simp at h
              | ok r2 =>
                  rw [hE] at h
                  simp at h
                  exact ⟨r2.1, h.1.symm⟩
      | false =>
          simp only [Bool.false_eq_true, if_false] at h
          cases hG : pyGetItem sp0 "containers" with
          | error e => rw [hG] at h; simp at h
          | ok cv =>
              rw [hG] at h
              dsimp only at h
              cases hI : pyIterate cv with
              | error e => rw [hI] at h; simp at h
              | ok elems =>
                  rw [hI] at h
                  dsimp only at h
                  cases hFC : fixContainers 0 elems with
                  | error e => rw [hFC] at h; simp at h
                  | ok r =>
                      rw [hFC] at h
                      dsimp only at h
                      cases hS : pySetItem sp0 "containers" (.list r.1) with
                      | error e => rw [hS] at h; simp at h
                      | ok sp =>
                          rw [hS] at h
                          dsimp only at h
                          cases hE : ensureKey sp "restartPolicy" (.str "Always")
                              msgAddedRestartPolicy with
                          | error e => rw [hE] at h; simp at h
                          | ok r2 =>
                              rw [hE] at h
                              simp at h
                              exact ⟨r2.1, h.1.symm⟩

theorem fix_pod_spec_shape {m m2 : Entries} {f : List String}
    (h : fix_pod_spec m = .ok (m2, f)) : ∃ x, m2 = setVal m "spec" x := by
  unfold fix_pod_spec at h
  cases hsp : findVal m "spec" with
  | none => rw [hsp] at h; exact fix_pod_body_shape h
  | some v => rw [hsp] at h; exact fix_pod_body_shape h

theorem dispatchKind_ok_shape {kind : Val} {m m2 : Entries} {f : List String}
    (h : dispatchKind kind m = .ok (m2, f)) :
    m2 = m ∨ ∃ x, m2 = setVal m "spec" x := by
  unfold dispatchKind at h
  cases hp : isStrEq kind "Pod" with
  | true =>
      rw [hp] at h
      simp only [if_true] at h
      exact Or.inr (fix_pod_spec_shape h)
  | false =>
      rw [hp] at h
      simp only [Bool.false_eq_true, if_false] at h
      cases hd : isStrEq kind "Deployment" with
      | true =>
          rw [hd] at h
          simp only [if_true] at h
          exact Or.inr (fix_deployment_spec_ok h)
      | false =>
          rw [hd] at h
          simp only [Bool.false_eq_true, if_false] at h
          cases hs : isStrEq kind "Service" with
          | true =>
              rw [hs] at h
              simp only [if_true] at h
              exact Or.inr (fix_service_spec_ok h)
          | false =>
              rw [hs] at h
              simp only [Bool.false_eq_true, if_false] at h
              simp at h
              exact Or.inl h.1.symm

theorem dispatchKind_second {kind : Val} {m m2 : Entries} {f : List String}
    (hpod : isStrEq kind "Pod" = true →
      ∃ sp cv, findVal m "spec" = some (.map sp) ∧
        findVal sp "containers" = some cv ∧ truthy cv = true)
    (h : dispatchKind kind m = .ok (m2, f)) :
    dispatchKind kind m2 = .ok (m2, []) := by
  unfold dispatchKind at h ⊢
  cases hp : isStrEq kind "Pod" with
  | true =>
      rw [hp] at h
      simp only [if_true] at h ⊢
      obtain ⟨sp, cv, hsp, hcv, htv⟩ := hpod hp
      exact fix_pod_spec_second hsp hcv htv h
  | false =>
      rw [hp] at h
      simp only [Bool.false_eq_true, if_false] at h ⊢
      cases hd : isStrEq kind "Deployment" with
      | true =>
          rw [hd] at h
          simp only [if_true] at h ⊢
          exact fix_deployment_spec_second h
      | false =>
          rw [hd] at h
          simp only [Bool.false_eq_true, if_false] at h ⊢
          cases hs : isStrEq kind "Service" with
          | true =>
              rw [hs] at h
              simp only [if_true] at h ⊢
              exact fix_service_spec_second h
          | false =>
              rw [hs] at h
              simp only [Bool.false_eq_true, if_false] at h ⊢

/-! ## Decomposition of `resolve_manifest` on mappings -/

theorem resolve_manifest_map_ok {m : Entries} {b : Bool} {d : Val} {fs : List String}
    (h : resolve_manifest (.map m) = .ok (b, d, fs)) :
    (findVal (fixApiVersion m).1 "kind" = none ∧ b = true ∧
      d = .map (fixApiVersion m).1 ∧ fs = (fixApiVersion m).2 ++ [msgMissingKind]) ∨
    (∃ kind m2 f2 m3 f3,
      findVal (fixApiVersion m).1 "kind" = some kind ∧
      fix_metadata (fixApiVersion m).1 kind = .ok (m2, f2) ∧
      dispatchKind kind m2 = .ok (m3, f3) ∧
      b = !((fixApiVersion m).2 ++ f2 ++ f3).isEmpty ∧
      d = .map m3 ∧ fs = (fixApiVersion m).2 ++ f2 ++ f3) := by
  unfold resolve_manifest at h
  dsimp only at h
  cases hk : findVal (fixApiVersion m).1 "kind" with
  | none =>
      rw [hk] at h
      dsimp only at h
      injection h with h2
      exact Or.inl ⟨rfl, (congrArg Prod.fst h2).symm,
        (congrArg (fun t => t.2.1) h2).symm, (congrArg (fun t => t.2.2) h2).symm⟩
  | some kind =>
      rw [hk] at h
      dsimp only at h
      cases hm : fix_metadata (fixApiVersion m).1 kind with
      | error e => rw [hm] at h; simp at h
      | ok r2 =>
          obtain ⟨m2, f2⟩ := r2
          rw [hm] at h
          dsimp only at h
          cases hd : dispatchKind kind m2 with
          | error e => rw [hd] at h; simp at h
          | ok r3 =>
              obtain ⟨m3, f3⟩ := r3
              rw [hd] at h
              dsimp only at h
              injection h with h2
              exact Or.inr ⟨kind, m2, f2, m3, f3, rfl, hm, hd,
                (congrArg Prod.fst h2).symm,
                (congrArg (fun t => t.2.1) h2).symm,
                (congrArg (fun t => t.2.2) h2).symm⟩

theorem resolve_manifest_noop_build {m : Entries} {kind : Val}
    (hapi : fixApiVersion m = (m, []))
    (hk : findVal m "kind" = some kind)
    (hmeta : fix_metadata m kind = .ok (m, []))
    (hdisp : dispatchKind kind m = .ok (m, [])) :
    resolve_manifest (.map m) = .ok (false, .map m, []) := by
  unfold resolve_manifest
  dsimp only
  rw [hapi]
  dsimp only
  rw [hk]
  dsimp only
  rw [hmeta]
  dsimp only
  rw [hdisp]
  rfl

/-- C4 (amended): for a mapping document that contains `kind` and — when
the kind is Pod — already provides a truthy `spec.containers`, a second
application of the resolver to its own output reports no modification
and an empty fix list. -/
theorem resolve_manifest_reapply {m : Entries} {b : Bool} {d : Val} {fs : List String}
    (hkind : (findVal m "kind").isSome = true)
    (hpod : podContainersProvided m = true)
    (h : resolve_manifest (.map m) = .ok (b, d, fs)) :
    resolve_manifest d = .ok (false, d, []) := by
  rcases resolve_manifest_map_ok h with ⟨hk, _, _, _⟩ |
    ⟨kind, m2, f2, m3, f3, hk, hmeta, hdisp, _, hd, _⟩
  · rw [fixApiVersion_frame m "kind" (by decide)] at hk
    rw [hk] at hkind
    simp at hkind
  · subst hd
    obtain ⟨md, hm2shape, ⟨⟨nv, hnv, hnvt⟩, hns⟩⟩ := fix_metadata_ok hmeta
    obtain ⟨nsv, hnsv⟩ := Option.isSome_iff_exists.mp hns
    have hshape := dispatchKind_ok_shape hdisp
    have hmeta2 : findVal m2 "metadata" = some (.map md) := by
      rw [hm2shape]
      exact findVal_setVal_self _ _ _
    have hmeta3 : findVal m3 "metadata" = some (.map md) := by
      rcases hshape with he | ⟨x, he⟩
      · rw [he]; exact hmeta2
      · rw [he, findVal_setVal_ne _ _ _ _ (by decide)]; exact hmeta2
    have hkind2 : findVal m2 "kind" = some kind := by
      rw [hm2shape, findVal_setVal_ne _ _ _ _ (by decide)]
      exact hk
    have hkind3 : findVal m3 "kind" = some kind := by
      rcases hshape with he | ⟨x, he⟩
      · rw [he]; exact hkind2
      · rw [he, findVal_setVal_ne _ _ _ _ (by decide)]; exact hkind2
    obtain ⟨av, hav1, havt, _⟩ := fixApiVersion_post m
    have hav2 : findVal m2 "apiVersion" = some av := by
      rw [hm2shape, findVal_setVal_ne _ _ _ _ (by decide)]
      exact hav1
    have hav3 : findVal m3 "apiVersion" = some av := by
      rcases hshape with he | ⟨x, he⟩
      · rw [he]; exact hav2
      · rw [he, findVal_setVal_ne _ _ _ _ (by decide)]; exact hav2
    have hpod2 : isStrEq kind "Pod" = true →
        ∃ sp cv, findVal m2 "spec" = some (.map sp) ∧
          findVal sp "containers" = some cv ∧ truthy cv = true := by
      intro hkp
      unfold podContainersProvided at hpod
      have hkm : findVal m "kind" = some kind := by
        rw [← fixApiVersion_frame m "kind" (by decide)]
        exact hk
      rw [hkm] at hpod
      dsimp only at hpod
      rw [hkp] at hpod
      simp only [if_true] at hpod
      cases hspm : findVal m "spec" with
      | none => rw [hspm] at hpod; simp at hpod
      | some spv =>
          rw [hspm] at hpod
          cases spv with
          | map sp =>
              dsimp only at hpod
              cases hc : findVal sp "containers" with
              | none => rw [hc] at hpod; simp at hpod
              | some cv =>
                  rw [hc] at hpod
                  refine ⟨sp, cv, ?_, hc, hpod⟩
                  rw [hm2shape, findVal_setVal_ne _ _ _ _ (by decide),
                      fixApiVersion_frame m "spec" (by decide)]
                  exact hspm
          | str s => simp at hpod
          | int n => simp at hpod
          | bool b2 => simp at hpod
          | null => simp at hpod
          | list l => simp at hpod
    have hdisp2 : dispatchKind kind m3 = .ok (m3, []) := dispatchKind_second hpod2 hdisp
    exact resolve_manifest_noop_build (fixApiVersion_noop hav3 havt) hkind3
      (fix_metadata_noop hmeta3 hnv hnvt hnsv) hdisp2

/-! ## Validator lemmas -/

theorem dispatchKind_supported_spec {k : String} {m m2 : Entries} {f : List String}
    (hsup : k = "Pod" ∨ k = "Deployment" ∨ k = "Service")
    (h : dispatchKind (.str k) m = .ok (m2, f)) :
    ∃ x, m2 = setVal m "spec" x := by
  unfold dispatchKind at h
  rcases hsup with hh | hh | hh <;> subst hh
  · simp only [show isStrEq (Val.str "Pod") "Pod" = true from rfl, if_true] at h
    exact fix_pod_spec_shape h
  · simp only [show isStrEq (Val.str "Deployment") "Pod" = false from rfl,
      show isStrEq (Val.str "Deployment") "Deployment" = true from rfl,
      Bool.false_eq_true, if_false, if_true] at h
    exact fix_deployment_spec_ok h
  · simp only [show isStrEq (Val.str "Service") "Pod" = false from rfl,
      show isStrEq (Val.str "Service") "Deployment" = false from rfl,
      show isStrEq (Val.str "Service") "Service" = true from rfl,
      Bool.false_eq_true, if_false, if_true] at h
    exact fix_service_spec_ok h

theorem validate_manifest_good {m3 : Entries} {k : String} {md : Entries} {s : String}
    (hsup : k = "Pod" ∨ k = "Deployment" ∨ k = "Service")
    (hkind : findVal m3 "kind" = some (.str k))
    (hapi : findVal m3 "apiVersion" = some (.str s))
    (hstrip : (pyStrip s).isEmpty = false)
    (hmd : findVal m3 "metadata" = some (.map md))
    (hname : (findVal md "name").isSome = true)
    (hspec : (findVal m3 "spec").isSome = true) :
    validate_manifest m3 = (true, []) := by
  unfold validate_manifest
  rw [hkind]
  dsimp only
  obtain ⟨x, hspecx⟩ := Option.isSome_iff_exists.mp hspec
  obtain ⟨nx, hnx⟩ := Option.isSome_iff_exists.mp hname
  have he1 : SUPPORTED_KINDS.any (fun s2 => isStrEq (Val.str k) s2) = true := by
    rcases hsup with hh | hh | hh <;> subst hh <;> decide
  have he2 : REQUIRED_KINDS.any (fun s2 => isStrEq (Val.str k) s2) = true := by
    rcases hsup with hh | hh | hh <;> subst hh <;> decide
  simp [validateErrors, he1, he2, REQUIRED_FIELDS_LIST, hkind, hapi, hmd, hspecx,
    hnx, hstrip]

/-- C1 (amended): for a mapping document whose `kind` is Pod, Deployment
or Service and whose `apiVersion`, when present and truthy, is a string
that is non-empty after stripping, a resolver run that returns with
`wasModified = true` produces a document that the validator accepts. -/
theorem C1_resolve_then_validate {m : Entries} {b : Bool} {d : Val} {fs : List String}
    {k : String}
    (hk : findVal m "kind" = some (.str k))
    (hsup : k = "Pod" ∨ k = "Deployment" ∨ k = "Service")
    (hapi : apiVersionOk m = true)
    (_hb : b = true)
    (h : resolve_manifest (.map m) = .ok (b, d, fs)) :
    ∃ m3, d = .map m3 ∧ validate_manifest m3 = (true, []) := by
  rcases resolve_manifest_map_ok h with ⟨hkn, _, _, _⟩ |
    ⟨kind, m2, f2, m3, f3, hk1, hmeta, hdisp, _, hd, _⟩
  · rw [fixApiVersion_frame m "kind" (by decide), hk] at hkn
    simp at hkn
  · subst hd
    refine ⟨m3, rfl, ?_⟩
    have hkv : kind = .str k := by
      rw [fixApiVersion_frame m "kind" (by decide), hk] at hk1
      injection hk1 with h2
      exact h2.symm
    subst hkv
    obtain ⟨md, hm2shape, ⟨⟨nv, hnv, hnvt⟩, hns⟩⟩ := fix_metadata_ok hmeta
    obtain ⟨x, hshape⟩ := dispatchKind_supported_spec hsup hdisp
    have hmeta3 : findVal m3 "metadata" = some (.map md) := by
      rw [hshape, findVal_setVal_ne _ _ _ _ (by decide), hm2shape]
      exact findVal_setVal_self _ _ _
    have hkind3 : findVal m3 "kind" = some (.str k) := by
      rw [hshape, findVal_setVal_ne _ _ _ _ (by decide), hm2shape,
          findVal_setVal_ne _ _ _ _ (by decide)]
      exact hk1
    obtain ⟨av, hav1, havt, havsrc⟩ := fixApiVersion_post m
    have hav3 : findVal m3 "apiVersion" = some av := by
      rw [hshape, findVal_setVal_ne _ _ _ _ (by decide), hm2shape,
          findVal_setVal_ne _ _ _ _ (by decide)]
      exact hav1
    have hspec3 : (findVal m3 "spec").isSome = true := by
      rw [hshape, findVal_setVal_self]
      rfl
    obtain ⟨s, havs, hstrip⟩ : ∃ s, av = Val.str s ∧ (pyStrip s).isEmpty = false := by
      rcases havsrc with he | he
      · exact ⟨"v1", he, by decide⟩
      · unfold apiVersionOk at hapi
        rw [he] at hapi
        dsimp only at hapi
        rw [havt] at hapi
        simp at hapi
        cases av with
        | str s => exact ⟨s, rfl, by simpa using hapi⟩
        | int n => simp at hapi
        | bool b2 => simp at hapi
        | null => simp at hapi
        | map mm => simp at hapi
        | list l => simp at hapi
    subst havs
    exact validate_manifest_good hsup hkind3 hav3 hstrip hmeta3
      (by rw [hnv]; rfl) hspec3

/-- C1 counterexample: for `{kind: "Pod", apiVersion: " "}` the resolver
returns `wasModified = true` (it fills metadata and spec) but keeps the
truthy whitespace `apiVersion`, which the validator then rejects, so the
validated result is not valid. -/
theorem C1_counterexample :
    resolve_manifest (.map [("kind", Val.str "Pod"), ("apiVersion", Val.str " ")]) =
      .ok (true,
        .map [("kind", Val.str "Pod"), ("apiVersion", Val.str " "),
          ("metadata", .map [("name", Val.str "pod-default"),
            ("namespace", Val.str "default")]),
          ("spec", .map [("containers", .list [.map [("name", Val.str "container-0"),
            ("image", Val.str "nginx:latest")]]),
            ("restartPolicy", Val.str "Always")])],
        [msgAddedMetadata, msgAddedName "pod-default", msgAddedNamespace,
         msgAddedSpec, msgAddedDefaultContainer, msgAddedRestartPolicy]) ∧
    validate_manifest
        [("kind", Val.str "Pod"), ("apiVersion", Val.str " "),
         ("metadata", .map [("name", Val.str "pod-default"),
           ("namespace", Val.str "default")]),
         ("spec", .map [("containers", .list [.map [("name", Val.str "container-0"),
           ("image", Val.str "nginx:latest")]]),
           ("restartPolicy", Val.str "Always")])] =
      (false, [msgInvalidApiVersion]) := by
  exact ⟨rfl, rfl⟩

theorem C1_witness :
    ∃ m3, (Val.map [("kind", Val.str "Pod"), ("apiVersion", Val.str "v1"),
        ("metadata", .map [("name", Val.str "pod-default"),
          ("namespace", Val.str "default")]),
        ("spec", .map [("containers", .list [.map [("name", Val.str "container-0"),
          ("image", Val.str "nginx:latest")]]),
          ("restartPolicy", Val.str "Always")])]) = Val.map m3 ∧
      validate_manifest m3 = (true, []) :=
  C1_resolve_then_validate (m := [("kind", Val.str "Pod")]) rfl (Or.inl rfl)
    (by decide) rfl rfl

/-- C2 counterexample: `ResolveSemantics({kind: "Pod"})` yields 7 fixes,
but the synthesised default container has no `imagePullPolicy`, so the
result is not equal (as Python dicts) to the document the claim lists. -/
theorem C2_counterexample :
    resolve_manifest (.map [("kind", Val.str "Pod")]) =
      .ok (true,
        .map [("kind", Val.str "Pod"), ("apiVersion", Val.str "v1"),
          ("metadata", .map [("name", Val.str "pod-default"),
            ("namespace", Val.str "default")]),
          ("spec", .map [("containers", .list [.map [("name", Val.str "container-0"),
            ("image", Val.str "nginx:latest")]]),
            ("restartPolicy", Val.str "Always")])],
        [msgAddedApiVersion, msgAddedMetadata, msgAddedName "pod-default",
         msgAddedNamespace, msgAddedSpec, msgAddedDefaultContainer,
         msgAddedRestartPolicy]) ∧
    [msgAddedApiVersion, msgAddedMetadata, msgAddedName "pod-default",
     msgAddedNamespace, msgAddedSpec, msgAddedDefaultContainer,
     msgAddedRestartPolicy].length = 7 ∧
    valPyEq
      (.map [("kind", Val.str "Pod"), ("apiVersion", Val.str "v1"),
        ("metadata", .map [("name", Val.str "pod-default"),
          ("namespace", Val.str "default")]),
        ("spec", .map [("containers", .list [.map [("name", Val.str "container-0"),
          ("image", Val.str "nginx:latest")]]),
          ("restartPolicy", Val.str "Always")])])
      (.map [("apiVersion", Val.str "v1"), ("kind", Val.str "Pod"),
        ("metadata", .map [("name", Val.str "pod-default"),
          ("namespace", Val.str "default")]),
        ("spec", .map [("containers", .list [.map [("name", Val.str "container-0"),
          ("image", Val.str "nginx:latest"),
          ("imagePullPolicy", Val.str "IfNotPresent")]]),
          ("restartPolicy", Val.str "Always")])]) = false := by
  exact ⟨rfl, rfl, by decide⟩

/-- C2 (amended): the scenario holds with the container defaulted to
`{name, image}` only — the synthesised container carries no
`imagePullPolicy`; the fix count is 7. -/
theorem C2_amended :
    resolve_manifest (.map [("kind", Val.str "Pod")]) =
      .ok (true,
        .map [("kind", Val.str "Pod"), ("apiVersion", Val.str "v1"),
          ("metadata", .map [("name", Val.str "pod-default"),
            ("namespace", Val.str "default")]),
          ("spec", .map [("containers", .list [.map [("name", Val.str "container-0"),
            ("image", Val.str "nginx:latest")]]),
            ("restartPolicy", Val.str "Always")])],
        [msgAddedApiVersion, msgAddedMetadata, msgAddedName "pod-default",
         msgAddedNamespace, msgAddedSpec, msgAddedDefaultContainer,
         msgAddedRestartPolicy]) ∧
    [msgAddedApiVersion, msgAddedMetadata, msgAddedName "pod-default",
     msgAddedNamespace, msgAddedSpec, msgAddedDefaultContainer,
     msgAddedRestartPolicy].length = 7 ∧
    valPyEq
      (.map [("kind", Val.str "Pod"), ("apiVersion", Val.str "v1"),
        ("metadata", .map [("name", Val.str "pod-default"),
          ("namespace", Val.str "default")]),
        ("spec", .map [("containers", .list [.map [("name", Val.str "container-0"),
          ("image", Val.str "nginx:latest")]]),
          ("restartPolicy", Val.str "Always")])])
      (.map [("apiVersion", Val.str "v1"), ("kind", Val.str "Pod"),
        ("metadata", .map [("name", Val.str "pod-default"),
          ("namespace", Val.str "default")]),
        ("spec", .map [("containers", .list [.map [("name", Val.str "container-0"),
          ("image", Val.str "nginx:latest")]]),
          ("restartPolicy", Val.str "Always")])]) = true := by
  exact ⟨rfl, rfl, by decide⟩

/-- C4 counterexample: re-application is not idempotent.  For the empty
mapping the second run still reports the missing-kind diagnostic with
`wasModified = true`; for `{kind: "Pod"}` the second run adds the
`imagePullPolicy` the synthesised container lacks, again with
`wasModified = true` and a non-empty fix list. -/
theorem C4_counterexample :
    resolve_manifest (.map []) =
      .ok (true, .map [("apiVersion", Val.str "v1")],
        [msgAddedApiVersion, msgMissingKind]) ∧
    resolve_manifest (.map [("apiVersion", Val.str "v1")]) =
      .ok (true, .map [("apiVersion", Val.str "v1")], [msgMissingKind]) ∧
    resolve_manifest
      (.map [("kind", Val.str "Pod"), ("apiVersion", Val.str "v1"),
        ("metadata", .map [("name", Val.str "pod-default"),
          ("namespace", Val.str "default")]),
        ("spec", .map [("containers", .list [.map [("name", Val.str "container-0"),
          ("image", Val.str "nginx:latest")]]),
          ("restartPolicy", Val.str "Always")])]) =
      .ok (true,
        .map [("kind", Val.str "Pod"), ("apiVersion", Val.str "v1"),
          ("metadata", .map [("name", Val.str "pod-default"),
            ("namespace", Val.str "default")]),
          ("spec", .map [("containers", .list [.map [("name", Val.str "container-0"),
            ("image", Val.str "nginx:latest"),
            ("imagePullPolicy", Val.str "IfNotPresent")]]),
            ("restartPolicy", Val.str "Always")])],
        [msgAddedPullPolicy 0]) := by
  exact ⟨rfl, rfl, rfl⟩

theorem C4_witness :
    resolve_manifest
      (Val.map [("kind", Val.str "Pod"),
        ("spec", .map [("containers", .list [.map [("name", Val.str "web"),
          ("image", Val.str "nginx"),
          ("imagePullPolicy", Val.str "IfNotPresent")]]),
          ("restartPolicy", Val.str "Always")]),
        ("apiVersion", Val.str "v1"),
        ("metadata", .map [("name", Val.str "pod-default"),
          ("namespace", Val.str "default")])]) =
      .ok (false,
        Val.map [("kind", Val.str "Pod"),
          ("spec", .map [("containers", .list [.map [("name", Val.str "web"),
            ("image", Val.str "nginx"),
            ("imagePullPolicy", Val.str "IfNotPresent")]]),
            ("restartPolicy", Val.str "Always")]),
          ("apiVersion", Val.str "v1"),
          ("metadata", .map [("name", Val.str "pod-default"),
            ("namespace", Val.str "default")])], []) :=
  resolve_manifest_reapply
    (m := [("kind", Val.str "Pod"),
      ("spec", .map [("containers", .list [.map [("name", Val.str "web"),
        ("image", Val.str "nginx")]])])])
    (by decide) (by decide) rfl

/-- C5: a non-mapping input is returned unmodified (`wasModified = false`)
with exactly one diagnostic fix entry; for a mapping input on which the
resolver returns, `wasModified` is true iff the fix list is non-empty. -/
theorem C5_fails_closed (v : Val) :
    ((∀ mm, v ≠ Val.map mm) →
      resolve_manifest v = .ok (false, v, [msgInvalidManifest])) ∧
    (∀ m b d fs, v = Val.map m → resolve_manifest v = .ok (b, d, fs) →
      (b = true ↔ fs ≠ [])) := by
  constructor
  · intro hnm
    cases v with
    | map mm => exact absurd rfl (hnm mm)
    | str s => rfl
    | int n => rfl
    | bool b => rfl
    | null => rfl
    | list l => rfl
  · intro m b d fs hv h
    subst hv
    rcases resolve_manifest_map_ok h with ⟨_, hb, _, hfs⟩ |
      ⟨kind, m2, f2, m3, f3, _, _, _, hb, _, hfs⟩
    · subst hb
      subst hfs
      simp
    · subst hb
      subst hfs
      constructor
      · intro hb2 hfs2
        rw [hfs2] at hb2
        simp at hb2
      · intro hne
        simp only [Bool.not_eq_true']
        cases he : ((fixApiVersion m).2 ++ f2 ++ f3).isEmpty with
        | false => rfl
        | true =>
            rw [List.isEmpty_iff] at he
            exact absurd he hne

theorem C5_witness :
    resolve_manifest (Val.int 3) = .ok (false, Val.int 3, [msgInvalidManifest]) ∧
    (true = true ↔
      ([msgAddedApiVersion, msgAddedMetadata, msgAddedName "pod-default",
        msgAddedNamespace, msgAddedSpec, msgAddedDefaultContainer,
        msgAddedRestartPolicy] : List String) ≠ []) := by
  constructor
  · exact (C5_fails_closed (Val.int 3)).1 (fun mm h => Val.noConfusion h)
  · exact (C5_fails_closed (Val.map [("kind", Val.str "Pod")])).2
      [("kind", Val.str "Pod")] true
      (.map [("kind", Val.str "Pod"), ("apiVersion", Val.str "v1"),
        ("metadata", .map [("name", Val.str "pod-default"),
          ("namespace", Val.str "default")]),
        ("spec", .map [("containers", .list [.map [("name", Val.str "container-0"),
          ("image", Val.str "nginx:latest")]]),
          ("restartPolicy", Val.str "Always")])])
      [msgAddedApiVersion, msgAddedMetadata, msgAddedName "pod-default",
       msgAddedNamespace, msgAddedSpec, msgAddedDefaultContainer,
       msgAddedRestartPolicy] rfl rfl

/-- C10: on a mapping input on which the resolver returns, every
top-level key other than `apiVersion`, `metadata` and `spec` — `kind`
and unrecognized keys included — is preserved with its input value. -/
theorem C10_frame {m : Entries} {b : Bool} {d : Val} {fs : List String}
    (h : resolve_manifest (.map m) = .ok (b, d, fs)) :
    ∃ m3, d = .map m3 ∧ ∀ k2, k2 ≠ "apiVersion" → k2 ≠ "metadata" → k2 ≠ "spec" →
      findVal m3 k2 = findVal m k2 := by
  rcases resolve_manifest_map_ok h with ⟨_, _, hd, _⟩ |
    ⟨kind, m2, f2, m3, f3, _, hmeta, hdisp, _, hd, _⟩
  · subst hd
    exact ⟨_, rfl, fun k2 h1 _ _ => fixApiVersion_frame m k2 h1⟩
  · subst hd
    obtain ⟨md, hm2shape, _⟩ := fix_metadata_ok hmeta
    have hshape := dispatchKind_ok_shape hdisp
    refine ⟨m3, rfl, fun k2 h1 h2 h3 => ?_⟩
    have step2 : findVal m2 k2 = findVal m k2 := by
      rw [hm2shape, findVal_setVal_ne _ _ _ _ h2]
      exact fixApiVersion_frame m k2 h1
    rcases hshape with he | ⟨x, he⟩
    · rw [he]; exact step2
    · rw [he, findVal_setVal_ne _ _ _ _ h3]; exact step2

theorem C10_witness :
    ∃ m3, (Val.map [("kind", Val.str "Pod"), ("apiVersion", Val.str "v1"),
        ("metadata", .map [("name", Val.str "pod-default"),
          ("namespace", Val.str "default")]),
        ("spec", .map [("containers", .list [.map [("name", Val.str "container-0"),
          ("image", Val.str "nginx:latest")]]),
          ("restartPolicy", Val.str "Always")])]) = Val.map m3 ∧
      ∀ k2, k2 ≠ "apiVersion" → k2 ≠ "metadata" → k2 ≠ "spec" →
        findVal m3 k2 = findVal [("kind", Val.str "Pod")] k2 :=
  C10_frame (m := [("kind", Val.str "Pod")]) rfl

/-! ## Totality of the resolver on well-shaped documents (C3) -/

theorem needFillItem_map_ok (mm : Entries) (k : String) :
    ∃ b, needFillItem (.map mm) k = .ok b := by
  unfold needFillItem
  rw [pyContainsKey_map]
  cases hf : findVal mm k with
  | none => exact ⟨true, rfl⟩
  | some x => exact ⟨!truthy x, by simp [pyGetItem, hf]⟩

theorem fix_deployment_body_total (m : Entries) (sp : Entries) (f0 : List String) :
    ∃ r, fix_deployment_body m (.map sp) f0 = .ok r := by
  unfold fix_deployment_body
  obtain ⟨a1, g1, h1⟩ := ensureKey_map_ok sp "replicas" (.int 1) msgAddedReplicas
  rw [h1]
  dsimp only
  obtain ⟨a2, g2, h2⟩ := ensureKey_map_ok a1 "selector" defaultDeploySelector
    msgAddedSelector
  rw [h2]
  dsimp only
  obtain ⟨a3, g3, h3⟩ := ensureKey_map_ok a2 "template" defaultTemplate msgAddedTemplate
  rw [h3]
  exact ⟨_, rfl⟩

theorem fix_service_body_total (m : Entries) (sp : Entries) (f0 : List String) :
    ∃ r, fix_service_body m (.map sp) f0 = .ok r := by
  unfold fix_service_body
  obtain ⟨a1, g1, h1⟩ := ensureKey_map_ok sp "selector" (.map [("app", .str "default")])
    msgAddedSelector
  rw [h1]
  dsimp only
  obtain ⟨b1, hb1⟩ := needFillItem_map_ok a1 "ports"
  rw [hb1]
  cases b1 with
  | true => exact ⟨_, rfl⟩
  | false => exact ⟨_, rfl⟩

theorem fix_pod_body_total {m : Entries} {sp : Entries} {f0 : List String}
    (hc : (match findVal sp "containers" with
      | none => true
      | some cv => !truthy cv || containerListOk cv) = true) :
    ∃ r, fix_pod_body m (.map sp) f0 = .ok r := by
  unfold fix_pod_body
  cases hcv : findVal sp "containers" with
  | none =>
      have hnf : needFillItem (.map sp) "containers" = .ok true := by
        unfold needFillItem
        simp [pyContainsKey, hcv]
      rw [hnf]
      simp only [if_true]
      dsimp only [pySetItem]
      obtain ⟨mm2, ff, hE⟩ := ensureKey_map_ok (setVal sp "containers" defaultContainers)
        "restartPolicy" (.str "Always") msgAddedRestartPolicy
      rw [hE]
      exact ⟨_, rfl⟩
  | some cv =>
      rw [hcv] at hc
      dsimp only at hc
      cases ht : truthy cv with
      | false =>
          have hnf : needFillItem (.map sp) "containers" = .ok true := by
            unfold needFillItem
            simp [pyContainsKey, pyGetItem, hcv, ht]
          rw [hnf]
          simp only [if_true]
          dsimp only [pySetItem]
          obtain ⟨mm2, ff, hE⟩ := ensureKey_map_ok
            (setVal sp "containers" defaultContainers)
            "restartPolicy" (.str "Always") msgAddedRestartPolicy
          rw [hE]
          exact ⟨_, rfl⟩
      | true =>
          rw [ht] at hc
          simp at hc
          obtain ⟨cs, hcs⟩ : ∃ cs, cv = Val.list cs := by
            cases cv with
            | list cs => exact ⟨cs, rfl⟩
            | str s => simp [containerListOk] at hc
            | int n => simp [containerListOk] at hc
            | bool b => simp [containerListOk] at hc
            | null => simp [containerListOk] at hc
            | map mm => simp [containerListOk] at hc
          subst hcs
          have hall : ∀ c ∈ cs, ∃ mm, c = Val.map mm := by
            intro c hcm
            simp [containerListOk] at hc
            have := hc c hcm
            cases c with
            | map mm => exact ⟨mm, rfl⟩
            | str s => simp at this
            | int n => simp at this
            | bool b => simp at this
            | null => simp at this
            | list l => simp at this
          rw [needFillItem_found_truthy hcv ht]
          simp only [Bool.false_eq_true, if_false]
          rw [show pyGetItem (Val.map sp) "containers" = .ok (.list cs) by
            simp [pyGetItem, hcv]]
          dsimp only [pyIterate]
          obtain ⟨r, hr⟩ := fixContainers_total_maps hall 0
          rw [hr]
          obtain ⟨rv, rf⟩ := r
          dsimp only [pySetItem]
          obtain ⟨mm2, ff, hE⟩ := ensureKey_map_ok (setVal sp "containers" (.list rv))
            "restartPolicy" (.str "Always") msgAddedRestartPolicy
          rw [hE]
          exact ⟨_, rfl⟩

/-- C3 counterexample: the resolver raises (`TypeError`) for the mapping
document `{kind: "Pod", metadata: 5}` — malformed content, not a
malformed input shape. -/
theorem C3_counterexample :
    resolve_manifest (.map [("kind", Val.str "Pod"), ("metadata", Val.int 5)]) =
      .error "TypeError: argument is not iterable" := rfl

/-- C3 (amended): the resolver never raises when the root is not a
mapping (it returns a diagnostic instead), and it returns normally on
every mapping whose `kind` (if present) is a string, whose `metadata`
and `spec` (if present) are mappings and whose present truthy
`spec.containers` is a sequence of mappings; but it can raise for other
malformed content, such as a non-mapping `metadata`. -/
theorem C3_no_raise_when_well_shaped {m : Entries} (hw : wellShaped m = true) :
    ∃ r, resolve_manifest (.map m) = .ok r := by
  unfold wellShaped at hw
  simp only [Bool.and_eq_true] at hw
  obtain ⟨⟨hk, hmd⟩, hsp⟩ := hw
  unfold resolve_manifest
  dsimp only
  cases hkv : findVal (fixApiVersion m).1 "kind" with
  | none => exact ⟨_, rfl⟩
  | some kv =>
      have hkm : findVal m "kind" = some kv := by
        rw [← fixApiVersion_frame m "kind" (by decide)]
        exact hkv
      rw [hkm] at hk
      obtain ⟨s, hs⟩ : ∃ s, kv = Val.str s := by
        cases kv with
        | str s => exact ⟨s, rfl⟩
        | int n => simp at hk
        | bool b => simp at hk
        | null => simp at hk
        | map mm => simp at hk
        | list l => simp at hk
      subst hs
      have hmd1 : findVal (fixApiVersion m).1 "metadata" = findVal m "metadata" :=
        fixApiVersion_frame m "metadata" (by decide)
      have hmeta : ∃ r2, fix_metadata (fixApiVersion m).1 (.str s) = .ok r2 := by
        unfold fix_metadata
        rw [hmd1]
        cases hmm : findVal m "metadata" with
        | none => exact fix_metadata_body_total _ s [] [msgAddedMetadata]
        | some mv =>
            rw [hmm] at hmd
            obtain ⟨mdm, hmv⟩ : ∃ mdm, mv = Val.map mdm := by
              cases mv with
              | map mdm => exact ⟨mdm, rfl⟩
              | str s2 => simp at hmd
              | int n => simp at hmd
              | bool b => simp at hmd
              | null => simp at hmd
              | list l => simp at hmd
            subst hmv
            exact fix_metadata_body_total _ s mdm []
      obtain ⟨r2, hr2⟩ := hmeta
      dsimp only
      rw [hr2]
      dsimp only
      obtain ⟨m2, f2⟩ := r2
      obtain ⟨md, hm2shape, _⟩ := fix_metadata_ok hr2
      have hsp2 : findVal m2 "spec" = findVal m "spec" := by
        rw [hm2shape, findVal_setVal_ne _ _ _ _ (by decide)]
        exact fixApiVersion_frame m "spec" (by decide)
      have hdisp : ∃ r3, dispatchKind (.str s) m2 = .ok r3 := by
        unfold dispatchKind
        cases hp : isStrEq (.str s) "Pod" with
        | true =>
            simp only [if_true]
            unfold fix_pod_spec
            rw [hsp2]
            cases hspm : findVal m "spec" with
            | none => exact fix_pod_body_total (by rfl)
            | some spv =>
                rw [hspm] at hsp
                cases spv with
                | map sp => exact fix_pod_body_total hsp
                | str s2 => simp at hsp
                | int n => simp at hsp
                | bool b => simp at hsp
                | null => simp at hsp
                | list l => simp at hsp
        | false =>
            simp only [Bool.false_eq_true, if_false]
            cases hd : isStrEq (.str s) "Deployment" with
            | true =>
                simp only [if_true]
                unfold fix_deployment_spec
                rw [hsp2]
                cases hspm : findVal m "spec" with
                | none => exact fix_deployment_body_total _ [] [msgAddedSpec]
                | some spv =>
                    rw [hspm] at hsp
                    cases spv with
                    | map sp => exact fix_deployment_body_total _ sp []
                    | str s2 => simp at hsp
                    | int n => simp at hsp
                    | bool b => simp at hsp
                    | null => simp at hsp
                    | list l => simp at hsp
            | false =>
                simp only [Bool.false_eq_true, if_false]
                cases hsv : isStrEq (.str s) "Service" with
                | true =>
                    simp only [if_true]
                    unfold fix_service_spec
                    rw [hsp2]
                    cases hspm : findVal m "spec" with
                    | none => exact fix_service_body_total _ [] [msgAddedSpec]
                    | some spv =>
                        rw [hspm] at hsp
                        cases spv with
                        | map sp => exact fix_service_body_total _ sp []
                        | str s2 => simp at hsp
                        | int n => simp at hsp
                        | bool b => simp at hsp
                        | null => simp at hsp
                        | list l => simp at hsp
                | false =>
                    simp only [Bool.false_eq_true, if_false]
                    exact ⟨_, rfl⟩
      obtain ⟨r3, hr3⟩ := hdisp
      rw [hr3]
      exact ⟨_, rfl⟩

theorem C3_witness :
    ∃ r, resolve_manifest (.map [("kind", Val.str "Pod"),
      ("metadata", Val.map []),
      ("spec", Val.map [("containers", Val.list [Val.map []])])]) = .ok r :=
  C3_no_raise_when_well_shaped (by decide)

/-- C8: for a Pod mapping missing both `metadata` and `spec`, the
validator reports (at least) two distinct missing-required-field errors
— one per missing field — and the document is invalid. -/
theorem C8_validator_completeness {m : Entries}
    (hk : findVal m "kind" = some (.str "Pod"))
    (hmd : findVal m "metadata" = none)
    (hsp : findVal m "spec" = none) :
    (validate_manifest m).1 = false ∧
    msgMissingRequired (.str "Pod") "metadata" ∈ (validate_manifest m).2 ∧
    msgMissingRequired (.str "Pod") "spec" ∈ (validate_manifest m).2 ∧
    msgMissingRequired (.str "Pod") "metadata" ≠
      msgMissingRequired (.str "Pod") "spec" := by
  have hval : validate_manifest m =
      ((validateErrors m (.str "Pod")).isEmpty, validateErrors m (.str "Pod")) := by
    unfold validate_manifest
    rw [hk]
  have hmem : ∀ fld, fld ∈ REQUIRED_FIELDS_LIST → (findVal m fld).isNone = true →
      msgMissingRequired (.str "Pod") fld ∈ validateErrors m (.str "Pod") := by
    intro fld hin hnone
    unfold validateErrors
    simp only [List.mem_append]
    refine Or.inl (Or.inl (Or.inr ?_))
    rw [if_pos (by decide : (REQUIRED_KINDS.any fun s => isStrEq (Val.str "Pod") s) = true)]
    exact List.mem_map_of_mem _ (List.mem_filter.mpr ⟨hin, hnone⟩)
  have h1 := hmem "metadata" (by decide) (by rw [hmd]; rfl)
  have h2 := hmem "spec" (by decide) (by rw [hsp]; rfl)
  have hne : validateErrors m (.str "Pod") ≠ [] := List.ne_nil_of_mem h1
  rw [hval]
  refine ⟨?_, h1, h2, by decide⟩
  dsimp only
  cases he : (validateErrors m (.str "Pod")).isEmpty with
  | false => rfl
  | true => exact absurd (List.isEmpty_iff.mp he) hne

theorem C8_witness :
    (validate_manifest [("kind", Val.str "Pod")]).1 = false ∧
    msgMissingRequired (.str "Pod") "metadata" ∈
      (validate_manifest [("kind", Val.str "Pod")]).2 ∧
    msgMissingRequired (.str "Pod") "spec" ∈
      (validate_manifest [("kind", Val.str "Pod")]).2 ∧
    msgMissingRequired (.str "Pod") "metadata" ≠
      msgMissingRequired (.str "Pod") "spec" :=
  C8_validator_completeness rfl rfl rfl

/-! ## Lemmas about the recovery pass -/

theorem applyTypos_false {l : Line} (h : (applyTypos l).2.2 = false) :
    applyTypos l = (l, [], false) := by
  unfold applyTypos at h ⊢
  by_cases h1 : containsSub (strL "ngin x") l = true
  · rw [if_pos h1] at h
    dsimp only at h
    by_cases h2 : containsSub (strL "conts ainer")
        (replaceSub (strL "ngin x") (strL "nginx") l) = true
    · rw [if_pos h2] at h
      simp at h
    · rw [if_neg h2] at h
      simp at h
  · rw [if_neg h1] at h ⊢
    by_cases h2 : containsSub (strL "conts ainer") l = true
    · rw [if_pos h2] at h
      simp at h
    · rw [if_neg h2] at h ⊢

theorem applyTypos_mod_eq (l : Line) :
    (applyTypos l).2.2 = !(applyTypos l).2.1.isEmpty := by
  unfold applyTypos
  by_cases h1 : containsSub (strL "ngin x") l = true
  · rw [if_pos h1]
    dsimp only
    by_cases h2 : containsSub (strL "conts ainer")
        (replaceSub (strL "ngin x") (strL "nginx") l) = true
    · rw [if_pos h2]
      rfl
    · rw [if_neg h2]
      rfl
  · rw [if_neg h1]
    by_cases h2 : containsSub (strL "conts ainer") l = true
    · rw [if_pos h2]
      rfl
    · rw [if_neg h2]
      rfl

theorem isEmpty_append_eq (s t : List String) :
    (s ++ t).isEmpty = (s.isEmpty && t.isEmpty) := by
  cases s with
  | nil => simp
  | cons a rest => rfl

/-- Fix accumulation and the modified flag: the fix list only grows, and
the returned flag is the incoming one or-ed with whether new fixes were
recorded. -/
theorem goFuel_invariant (fuel : Nat) :
    ∀ rest acc fs md, ∃ δ, (goFuel fuel rest acc fs md).2.2 = fs ++ δ ∧
      (goFuel fuel rest acc fs md).1 = (md || !δ.isEmpty) := by
  induction fuel with
  | zero =>
      intro rest acc fs md
      cases rest with
      | nil => exact ⟨[], by simp [goFuel], by simp [goFuel]⟩
      | cons l rest2 => exact ⟨[], by simp [goFuel], by simp [goFuel]⟩
  | succ fuel ih =>
      intro rest acc fs md
      cases rest with
      | nil => exact ⟨[], by simp [goFuel], by simp [goFuel]⟩
      | cons l rest2 =>
          simp only [goFuel]
          by_cases hb : isBlankL l = true
          · rw [if_pos hb]
            exact ih rest2 (l :: acc) fs md
          · rw [if_neg hb]
            cases h3 : tryRule3 (lstripL l) (indentOf l) rest2 with
            | some p =>
                obtain ⟨δ2, hfs2, hmd2⟩ := ih p.2 (p.1 :: acc)
                  ((fs ++ (applyTypos l).2.1) ++ [msgSplitKey (lstripL l)]) true
                refine ⟨(applyTypos l).2.1 ++ [msgSplitKey (lstripL l)] ++ δ2, ?_, ?_⟩
                · rw [hfs2]
                  simp
                · rw [hmd2]
                  simp [isEmpty_append_eq]
            | none =>
            cases h5 : tryRule5 (lstripL l) (indentOf l) acc with
            | some p =>
                obtain ⟨δ2, hfs2, hmd2⟩ := ih rest2 (p.1 :: p.2)
                  ((fs ++ (applyTypos l).2.1) ++ [msgOrphanPrev (lstripL l)]) true
                refine ⟨(applyTypos l).2.1 ++ [msgOrphanPrev (lstripL l)] ++ δ2, ?_, ?_⟩
                · rw [hfs2]
                  simp
                · rw [hmd2]
                  simp [isEmpty_append_eq]
            | none =>
            cases h4 : tryRule4 (lstripL l) (indentOf l) rest2 with
            | some p =>
                obtain ⟨δ2, hfs2, hmd2⟩ := ih p.2.1 (p.1 :: acc)
                  ((fs ++ (applyTypos l).2.1) ++ [msgOrphanKey p.2.2]) true
                refine ⟨(applyTypos l).2.1 ++ [msgOrphanKey p.2.2] ++ δ2, ?_, ?_⟩
                · rw [hfs2]
                  simp
                · rw [hmd2]
                  simp [isEmpty_append_eq]
            | none =>
                obtain ⟨δ2, hfs2, hmd2⟩ := ih rest2 ((applyTypos l).1 :: acc)
                  (fs ++ (applyTypos l).2.1) (md || (applyTypos l).2.2)
                refine ⟨(applyTypos l).2.1 ++ δ2, ?_, ?_⟩
                · rw [hfs2]
                  simp
                · rw [hmd2]
                  rw [applyTypos_mod_eq l]
                  simp [isEmpty_append_eq, Bool.or_assoc]

/-- If the recovery pass reports no modification, every line was pushed
through unchanged and no fixes were recorded. -/
theorem goFuel_unmodified (fuel : Nat) :
    ∀ rest acc fs md, (goFuel fuel rest acc fs md).1 = false →
      goFuel fuel rest acc fs md = (false, rest.reverse ++ acc, fs) := by
  induction fuel with
  | zero =>
      intro rest acc fs md h
      cases rest with
      | nil =>
          simp only [goFuel] at h ⊢
          rw [h]
          simp
      | cons l rest2 =>
          simp only [goFuel] at h ⊢
          rw [h]
  | succ fuel ih =>
      intro rest acc fs md h
      cases rest with
      | nil =>
          simp only [goFuel] at h ⊢
          rw [h]
          simp
      | cons l rest2 =>
          simp only [goFuel] at h ⊢
          by_cases hb : isBlankL l = true
          · rw [if_pos hb] at h ⊢
            rw [ih rest2 (l :: acc) fs md h]
            simp
          · rw [if_neg hb] at h ⊢
            cases h3 : tryRule3 (lstripL l) (indentOf l) rest2 with
            | some p =>
                rw [h3] at h
                dsimp only at h
                obtain ⟨δ, _, hmd⟩ := goFuel_invariant fuel p.2 (p.1 :: acc)
                  ((fs ++ (applyTypos l).2.1) ++ [msgSplitKey (lstripL l)]) true
                rw [hmd] at h
                simp at h
            | none =>
            rw [h3] at h
            dsimp only at h ⊢
            cases h5 : tryRule5 (lstripL l) (indentOf l) acc with
            | some p =>
                rw [h5] at h
                dsimp only at h
                obtain ⟨δ, _, hmd⟩ := goFuel_invariant fuel rest2 (p.1 :: p.2)
                  ((fs ++ (applyTypos l).2.1) ++ [msgOrphanPrev (lstripL l)]) true
                rw [hmd] at h
                simp at h
            | none =>
            rw [h5] at h
            dsimp only at h ⊢
            cases h4 : tryRule4 (lstripL l) (indentOf l) rest2 with
            | some p =>
                rw [h4] at h
                dsimp only at h
                obtain ⟨δ, _, hmd⟩ := goFuel_invariant fuel p.2.1 (p.1 :: acc)
                  ((fs ++ (applyTypos l).2.1) ++ [msgOrphanKey p.2.2]) true
                rw [hmd] at h
                simp at h
            | none =>
                rw [h4] at h
                dsimp only at h ⊢
                obtain ⟨δ, _, hmd⟩ := goFuel_invariant fuel rest2
                  ((applyTypos l).1 :: acc) (fs ++ (applyTypos l).2.1)
                  (md || (applyTypos l).2.2)
                have hmd2 : (md || (applyTypos l).2.2) = false := by
                  rw [hmd] at h
                  rcases Bool.or_eq_false_iff.mp h with ⟨h1, _⟩
                  exact h1
                rcases Bool.or_eq_false_iff.mp hmd2 with ⟨hmdf, htf⟩
                have htr := applyTypos_false htf
                rw [ih rest2 ((applyTypos l).1 :: acc)
                  (fs ++ (applyTypos l).2.1) (md || (applyTypos l).2.2) h]
                rw [htr]
                subst hmdf
                simp

theorem splitNL_ne_nil (cs : List Char) : splitNL cs ≠ [] := by
  cases cs with
  | nil => simp [splitNL]
  | cons c cs =>
      simp only [splitNL]
      by_cases hc : c = '\n'
      · rw [if_pos hc]
        simp
      · rw [if_neg hc]
        cases h : splitNL cs with
        | nil => simp
        | cons ln rest => simp

theorem joinNL_splitNL (cs : List Char) : joinNL (splitNL cs) = cs := by
  induction cs with
  | nil => rfl
  | cons c cs ih =>
      simp only [splitNL]
      by_cases hc : c = '\n'
      · rw [if_pos hc]
        obtain ⟨ln, rest, h⟩ := List.exists_cons_of_ne_nil (splitNL_ne_nil cs)
        rw [h]
        rw [h] at ih
        subst hc
        simp only [joinNL, List.nil_append]
        rw [ih]
      · rw [if_neg hc]
        obtain ⟨ln, rest, h⟩ := List.exists_cons_of_ne_nil (splitNL_ne_nil cs)
        rw [h]
        rw [h] at ih
        dsimp only
        cases rest with
        | nil =>
            simp only [joinNL] at ih ⊢
            rw [ih]
        | cons l2 r2 =>
            simp only [joinNL, List.cons_append] at ih ⊢
            rw [ih]

/-- C9: the recovery pass reports `was_modified = true` exactly when its
fix list is non-empty, and whenever it reports `false` the returned text
equals the input character for character. -/
theorem C9_modified_iff_fixes (content : String) :
    ((fix_yaml content).1 = true ↔ (fix_yaml content).2.2 ≠ []) ∧
    ((fix_yaml content).1 = false → (fix_yaml content).2.1 = content) := by
  obtain ⟨δ, hfs, hmd⟩ := goFuel_invariant (splitNL content.data).length
    (splitNL content.data) [] [] false
  have h1 : (fix_yaml content).1 =
      (goFuel (splitNL content.data).length (splitNL content.data) [] [] false).1 := rfl
  have h2 : (fix_yaml content).2.2 =
      (goFuel (splitNL content.data).length (splitNL content.data) [] [] false).2.2 := rfl
  constructor
  · rw [h1, h2, hmd, hfs]
    simp
  · intro hmod
    rw [h1] at hmod
    have hr := goFuel_unmodified (splitNL content.data).length
      (splitNL content.data) [] [] false hmod
    have h3 : (fix_yaml content).2.1 =
        String.mk (joinNL (goFuel (splitNL content.data).length
          (splitNL content.data) [] [] false).2.1.reverse) := rfl
    rw [h3, hr]
    dsimp only
    rw [List.append_nil, List.reverse_reverse, joinNL_splitNL]

theorem C9_witness :
    ((fix_yaml "kind: Pod").1 = true ↔ (fix_yaml "kind: Pod").2.2 ≠ []) ∧
    ((fix_yaml "kind: Pod").1 = false → (fix_yaml "kind: Pod").2.1 = "kind: Pod") :=
  C9_modified_iff_fixes "kind: Pod"

/-- Lines outside every recognized corruption signature are emitted
verbatim by the scanning loop, with no fix and no flag change. -/
theorem goFuel_clean (fuel : Nat) :
    ∀ rest acc fs md, (∀ l ∈ rest, cleanLine l = true) →
      goFuel fuel rest acc fs md = (md, rest.reverse ++ acc, fs) := by
  induction fuel with
  | zero =>
      intro rest acc fs md hc
      cases rest with
      | nil => simp [goFuel]
      | cons l rest2 => simp [goFuel]
  | succ fuel ih =>
      intro rest acc fs md hc
      cases rest with
      | nil => simp [goFuel]
      | cons l rest2 =>
          have hcl := hc l (List.mem_cons_self l rest2)
          have hcr : ∀ x ∈ rest2, cleanLine x = true :=
            fun x hx => hc x (List.mem_cons_of_mem l hx)
          unfold cleanLine at hcl
          simp only [Bool.and_eq_true, Bool.or_eq_true, Bool.not_eq_true'] at hcl
          obtain ⟨⟨h1, h2⟩, hor⟩ := hcl
          simp only [goFuel]
          by_cases hb : isBlankL l = true
          · rw [if_pos hb, ih rest2 (l :: acc) fs md hcr]
            simp
          · rw [if_neg hb]
            have hor2 : hasColon (lstripL l) = true ∧
                (pyStripChars (afterFirstColon (lstripL l))).isEmpty = false := by
              rcases hor with hbl | hcd
              · exact absurd hbl hb
              · exact hcd
            have htr : applyTypos l = (l, [], false) := by
              unfold applyTypos
              simp [h1, h2]
            have h3 : tryRule3 (lstripL l) (indentOf l) rest2 = none := by
              unfold tryRule3
              simp [hor2.1]
            have h5 : tryRule5 (lstripL l) (indentOf l) acc = none := by
              unfold tryRule5
              simp [hor2.1]
            have h4 : tryRule4 (lstripL l) (indentOf l) rest2 = none := by
              unfold tryRule4
              simp [hor2.1, hor2.2]
            rw [h3, h5, h4]
            dsimp only
            rw [htr]
            dsimp only
            rw [List.append_nil, Bool.or_false, ih rest2 (l :: acc) fs md hcr]
            simp

/-- C6: text all of whose lines carry no recognized corruption signature
is passed through unchanged — not modified, identical text, and no fix
recorded. -/
theorem C6_clean_passthrough {content : String} (h : allClean content = true) :
    fix_yaml content = (false, content, []) := by
  have hall : ∀ l ∈ splitNL content.data, cleanLine l = true := by
    unfold allClean at h
    exact fun l hl => List.all_eq_true.mp h l hl
  have hr := goFuel_clean (splitNL content.data).length
    (splitNL content.data) [] [] false hall
  have h1 : fix_yaml content =
      ((goFuel (splitNL content.data).length (splitNL content.data) [] [] false).1,
       String.mk (joinNL (goFuel (splitNL content.data).length
         (splitNL content.data) [] [] false).2.1.reverse),
       (goFuel (splitNL content.data).length (splitNL content.data) [] [] false).2.2) := rfl
  rw [h1, hr]
  dsimp only
  rw [List.append_nil, List.reverse_reverse, joinNL_splitNL]

theorem C6_witness :
    allClean "kind: Pod\n\n  name: x" = true ∧
    fix_yaml "kind: Pod\n\n  name: x" = (false, "kind: Pod\n\n  name: x", []) :=
  ⟨by decide, C6_clean_passthrough (by decide)⟩

/-! ### Whitespace-prefix lemmas for the orphaned-value scenario -/

theorem dropWhile_replicate_space (k : Nat) (l : List Char) :
    (List.replicate k ' ' ++ l).dropWhile pyIsSpace = l.dropWhile pyIsSpace := by
  induction k with
  | zero => rfl
  | succ k ih =>
      rw [List.replicate_succ, List.cons_append]
      simp only [List.dropWhile]
      rw [show pyIsSpace ' ' = true from rfl]
      exact ih

theorem takeWhile_replicate_space (k : Nat) (l : List Char) :
    (List.replicate k ' ' ++ l).takeWhile pyIsSpace =
      List.replicate k ' ' ++ l.takeWhile pyIsSpace := by
  induction k with
  | zero => rfl
  | succ k ih =>
      rw [List.replicate_succ, List.cons_append]
      simp only [List.takeWhile]
      rw [show pyIsSpace ' ' = true from rfl]
      rw [ih]
      rfl

theorem containsSub_replicate (c0 : Char) (prest : List Char) (hc : (c0 == ' ') = false)
    (k : Nat) (l : List Char) :
    containsSub (c0 :: prest) (List.replicate k ' ' ++ l) =
      containsSub (c0 :: prest) l := by
  induction k with
  | zero => rfl
  | succ k ih =>
      rw [List.replicate_succ, List.cons_append]
      simp only [containsSub, List.isPrefixOf, hc, Bool.false_and, Bool.false_or]
      exact ih

theorem lstrip_keyLine (k : Nat) : lstripL (keyLineIPP k) = strL "imagePullPolicy:" := by
  unfold keyLineIPP lstripL
  rw [dropWhile_replicate_space]
  decide

theorem indent_keyLine (k : Nat) : indentOf (keyLineIPP k) = List.replicate k ' ' := by
  unfold keyLineIPP indentOf
  rw [takeWhile_replicate_space]
  rw [show (strL "imagePullPolicy:").takeWhile pyIsSpace = [] from rfl, List.append_nil]

theorem isBlank_keyLine (k : Nat) : isBlankL (keyLineIPP k) = false := by
  unfold keyLineIPP isBlankL pyStripChars
  rw [dropWhile_replicate_space]
  decide

theorem lstrip_valueLine (v : Nat) : lstripL (valueLineINP v) = strL "IfNotPresent" := by
  unfold valueLineINP lstripL
  rw [dropWhile_replicate_space]
  decide

theorem isBlank_valueLine (v : Nat) : (pyStripChars (valueLineINP v)).isEmpty = false := by
  unfold valueLineINP pyStripChars
  rw [dropWhile_replicate_space]
  decide

theorem length_valueLine (v : Nat) :
    (valueLineINP v).length - (strL "IfNotPresent").length = v := by
  unfold valueLineINP
  rw [List.length_append, List.length_replicate]
  omega

theorem lstrip_mergedIPP (k : Nat) :
    lstripL (mergedIPP k) = strL "imagePullPolicy: IfNotPresent" := by
  unfold mergedIPP lstripL
  rw [dropWhile_replicate_space]
  decide

theorem popCond_mergedIPP (k : Nat) :
    (hasColon (lstripL (mergedIPP k)) &&
      ((strL ":").isSuffixOf (rstripL (lstripL (mergedIPP k))) ||
       (strL ": ").isSuffixOf (rstripL (lstripL (mergedIPP k))))) = false := by
  rw [lstrip_mergedIPP]
  decide

theorem applyTypos_space_line (k : Nat) (tail : List Char)
    (h1 : containsSub (strL "ngin x") tail = false)
    (h2 : containsSub (strL "conts ainer") tail = false) :
    applyTypos (List.replicate k ' ' ++ tail) =
      (List.replicate k ' ' ++ tail, [], false) := by
  have c1 : containsSub (strL "ngin x") (List.replicate k ' ' ++ tail) = false := by
    rw [show strL "ngin x" = 'n' :: strL "gin x" from rfl] at h1 ⊢
    rw [containsSub_replicate 'n' (strL "gin x") (by decide) k]
    exact h1
  have c2 : containsSub (strL "conts ainer") (List.replicate k ' ' ++ tail) = false := by
    rw [show strL "conts ainer" = 'c' :: strL "onts ainer" from rfl] at h2 ⊢
    rw [containsSub_replicate 'c' (strL "onts ainer") (by decide) k]
    exact h2
  unfold applyTypos
  simp [c1, c2]

/-- Inversion for the backward orphaned-value rule: a successful merge
pops exactly the head of the emitted lines, and that head satisfied the
empty-key condition. -/
theorem tryRule5_some {s i : Line} {acc : List Line} {p : Line × List Line}
    (h : tryRule5 s i acc = some p) :
    ∃ prev acc2, acc = prev :: acc2 ∧ p.2 = acc2 ∧
      (hasColon (lstripL prev) &&
        ((strL ":").isSuffixOf (rstripL (lstripL prev)) ||
         (strL ": ").isSuffixOf (rstripL (lstripL prev)))) = true := by
  unfold tryRule5 at h
  by_cases hc : (!hasColon s && startsVocab s) = true
  · rw [if_pos hc] at h
    cases acc with
    | nil => exact absurd h (by simp)
    | cons prev acc2 =>
        dsimp only at h
        by_cases hcond : (hasColon (lstripL prev) &&
            ((strL ":").isSuffixOf (rstripL (lstripL prev)) ||
             (strL ": ").isSuffixOf (rstripL (lstripL prev))) &&
            decide (natAbsDiff (indentOf prev).length i.length ≤ 1)) = true
        · rw [if_pos hcond] at h
          have h12 : (hasColon (lstripL prev) &&
              ((strL ":").isSuffixOf (rstripL (lstripL prev)) ||
               (strL ": ").isSuffixOf (rstripL (lstripL prev)))) = true := by
            have h9 := hcond
            rw [Bool.and_eq_true] at h9
            exact h9.1
          refine ⟨prev, acc2, rfl, ?_, h12⟩
          injection h with h2
          exact (congrArg Prod.snd h2).symm
        · rw [if_neg hcond] at h
          exact absurd h (by simp)
  · rw [if_neg hc] at h
    exact absurd h (by simp)

/-- A line at the bottom of the emitted stack that fails the empty-key
condition is never removed by the backward rule: it survives to the end
of the scan as the last emitted line. -/
theorem goFuel_base_preserved (fuel : Nat) :
    ∀ rest pre fs md (m0 : Line),
      (hasColon (lstripL m0) &&
        ((strL ":").isSuffixOf (rstripL (lstripL m0)) ||
         (strL ": ").isSuffixOf (rstripL (lstripL m0)))) = false →
      ∃ pre2, (goFuel fuel rest (pre ++ [m0]) fs md).2.1 = pre2 ++ [m0] := by
  induction fuel with
  | zero =>
      intro rest pre fs md m0 hm
      cases rest with
      | nil => exact ⟨pre, rfl⟩
      | cons l rest2 =>
          refine ⟨(l :: rest2).reverse ++ pre, ?_⟩
          simp [goFuel]
  | succ fuel ih =>
      intro rest pre fs md m0 hm
      cases rest with
      | nil => exact ⟨pre, rfl⟩
      | cons l rest2 =>
          simp only [goFuel]
          by_cases hb : isBlankL l = true
          · rw [if_pos hb]
            exact ih rest2 (l :: pre) fs md m0 hm
          · rw [if_neg hb]
            cases h3 : tryRule3 (lstripL l) (indentOf l) rest2 with
            | some p =>
                dsimp only
                exact ih p.2 (p.1 :: pre) _ true m0 hm
            | none =>
            dsimp only
            cases h5 : tryRule5 (lstripL l) (indentOf l) (pre ++ [m0]) with
            | some p =>
                dsimp only
                obtain ⟨prev, acc2, hacc, hp2, hcond⟩ := tryRule5_some h5
                cases pre with
                | nil =>
                    rw [List.nil_append] at hacc
                    injection hacc with hprev hacc2
                    rw [← hprev] at hcond
                    rw [hcond] at hm
                    exact absurd hm (by simp)
                | cons p0 pre2 =>
                    rw [List.cons_append] at hacc
                    injection hacc with hprev hacc2
                    rw [hp2, ← hacc2]
                    exact ih rest2 (p.1 :: pre2) _ true m0 hm
            | none =>
            dsimp only
            cases h4 : tryRule4 (lstripL l) (indentOf l) rest2 with
            | some p =>
                dsimp only
                exact ih p.2.1 (p.1 :: pre) _ true m0 hm
            | none =>
                dsimp only
                exact ih rest2 ((applyTypos l).1 :: pre) _ _ m0 hm

/-- Computation of the forward rule on the corruption pattern: the empty
`imagePullPolicy:` key, a blank line, and the bare `IfNotPresent` scalar
of compatible indentation merge into one line, consuming all three. -/
theorem tryRule4_ipp (k v : Nat) (B : Line) (post : List Line)
    (hB : pyStripChars B = []) (hkv : natAbsDiff v k ≤ 1) :
    tryRule4 (strL "imagePullPolicy:") (List.replicate k ' ')
      (B :: valueLineINP v :: post) = some (mergedIPP k, post, strL "IfNotPresent") := by
  unfold tryRule4
  rw [if_pos (by decide : hasColon (strL "imagePullPolicy:") = true)]
  rw [if_pos (by decide :
    (pyStripChars (afterFirstColon (strL "imagePullPolicy:"))).isEmpty = true)]
  have hpB : (pyStripChars B).isEmpty = true := by
    rw [hB]
    rfl
  have htw : (B :: valueLineINP v :: post).takeWhile
      (fun cl => (pyStripChars cl).isEmpty) = [B] := by
    simp [List.takeWhile_cons, hpB, isBlank_valueLine v]
  dsimp only
  rw [htw]
  rw [show ([B] : List Line).length = 1 from rfl]
  rw [show List.drop 1 (B :: valueLineINP v :: post) = valueLineINP v :: post from rfl]
  dsimp only
  rw [lstrip_valueLine]
  have hcnd : (decide (natAbsDiff ((valueLineINP v).length -
      (strL "IfNotPresent").length) (List.replicate k ' ').length ≤ 1) &&
      !(strL "IfNotPresent").isEmpty &&
      !hasColon (strL "IfNotPresent") && startsVocab (strL "IfNotPresent")) = true := by
    rw [length_valueLine, List.length_replicate]
    rw [decide_eq_true hkv]
    decide
  rw [if_pos hcnd]
  have hmerge : (List.replicate k ' ' ++ keyPartOf (strL "imagePullPolicy:") ++
      ' ' :: strL "IfNotPresent" : Line) = mergedIPP k := by
    rw [List.append_assoc]
    unfold mergedIPP
    exact congrArg (fun t => List.replicate k ' ' ++ t) (by decide)
  exact congrArg
    (fun t => some ((t, post, strL "IfNotPresent") : Line × List Line × Line)) hmerge

/-- One scanning step on the corruption pattern: the key line fires the
forward rule, emitting the merged line, recording the fix and consuming
the blank and value lines. -/
theorem goFuel_ipp_step (fuel : Nat) (k v : Nat) (B : Line) (post : List Line)
    (acc : List Line) (fs : List String) (md : Bool)
    (hB : pyStripChars B = []) (hkv : natAbsDiff v k ≤ 1) :
    goFuel (fuel + 1) (keyLineIPP k :: B :: valueLineINP v :: post) acc fs md =
      goFuel fuel post (mergedIPP k :: acc)
        (fs ++ [msgOrphanKey (strL "IfNotPresent")]) true := by
  simp only [goFuel]
  have hnb : ¬ (isBlankL (keyLineIPP k) = true) := by
    rw [isBlank_keyLine]
    simp
  rw [if_neg hnb]
  rw [lstrip_keyLine, indent_keyLine]
  have htr : applyTypos (keyLineIPP k) = (keyLineIPP k, [], false) :=
    applyTypos_space_line k _ (by decide) (by decide)
  rw [htr]
  have h3 : tryRule3 (strL "imagePullPolicy:") (List.replicate k ' ')
      (B :: valueLineINP v :: post) = none := by
    unfold tryRule3
    rw [if_neg (by decide : ¬ ((!hasColon (strL "imagePullPolicy:")) = true))]
  have h5 : tryRule5 (strL "imagePullPolicy:") (List.replicate k ' ') acc = none := by
    unfold tryRule5
    rw [if_neg (by decide : ¬ ((!hasColon (strL "imagePullPolicy:") &&
      startsVocab (strL "imagePullPolicy:")) = true))]
  rw [h3, h5, tryRule4_ipp k v B post hB hkv]
  dsimp only
  rw [List.append_nil]

theorem splitNL_no_newline {l : Line} (h : ('\n' ∈ l) → False) : splitNL l = [l] := by
  induction l with
  | nil => rfl
  | cons c cs ih =>
      simp only [splitNL]
      have hc : ¬ (c = '\n') := fun he => h (he ▸ List.mem_cons_self c cs)
      rw [if_neg hc]
      rw [ih (fun hm => h (List.mem_cons_of_mem c hm))]

theorem splitNL_append_cons {l : Line} (rest : List Char) (h : ('\n' ∈ l) → False) :
    splitNL (l ++ '\n' :: rest) = l :: splitNL rest := by
  induction l with
  | nil =>
      simp [splitNL]
  | cons c cs ih =>
      rw [show (c :: cs) ++ '\n' :: rest = c :: (cs ++ '\n' :: rest) from rfl]
      simp only [splitNL]
      have hc : ¬ (c = '\n') := fun he => h (he ▸ List.mem_cons_self c cs)
      rw [if_neg hc]
      rw [ih (fun hm => h (List.mem_cons_of_mem c hm))]

theorem splitNL_joinNL : ∀ ls : List Line, (∀ l ∈ ls, ('\n' ∈ l) → False) →
    ls ≠ [] → splitNL (joinNL ls) = ls
  | [], _, hne => absurd rfl hne
  | [l], h, _ => by
      simp only [joinNL]
      exact splitNL_no_newline (h l (List.mem_cons_self l []))
  | l :: l2 :: ls, h, _ => by
      simp only [joinNL]
      rw [splitNL_append_cons _ (h l (List.mem_cons_self l (l2 :: ls)))]
      rw [splitNL_joinNL (l2 :: ls) (fun x hx => h x (List.mem_cons_of_mem l hx)) (by simp)]

theorem keyLine_no_newline (k : Nat) : ('\n' ∈ keyLineIPP k) → False := by
  intro hm
  unfold keyLineIPP at hm
  rcases List.mem_append.mp hm with h | h
  · exact absurd (List.eq_of_mem_replicate h) (by decide)
  · exact absurd h (by decide)

theorem valueLine_no_newline (v : Nat) : ('\n' ∈ valueLineINP v) → False := by
  intro hm
  unfold valueLineINP at hm
  rcases List.mem_append.mp hm with h | h
  · exact absurd (List.eq_of_mem_replicate h) (by decide)
  · exact absurd h (by decide)

/-- C7: on text whose lines are the empty key `imagePullPolicy:` at
indentation `k`, a blank line, the bare scalar `IfNotPresent` at
indentation within one of `k`, and then any further (newline-free)
lines, the recovery pass reports modification, records the
orphaned-value fix first, and its output replaces the three corrupted
lines by the single merged line `imagePullPolicy: IfNotPresent` — the
blank line and the value line are consumed. -/
theorem C7_orphan_merge (k v : Nat) (B : Line) (post : List Line)
    (hB : pyStripChars B = []) (hBn : ('\n' ∈ B) → False)
    (hpost : ∀ l ∈ post, ('\n' ∈ l) → False)
    (hkv : natAbsDiff v k ≤ 1) :
    ∃ outRest fixRest,
      fix_yaml (String.mk (joinNL (keyLineIPP k :: B :: valueLineINP v :: post))) =
        (true, String.mk (joinNL (mergedIPP k :: outRest)),
         msgOrphanKey (strL "IfNotPresent") :: fixRest) := by
  have hmem : ∀ l ∈ keyLineIPP k :: B :: valueLineINP v :: post,
      ('\n' ∈ l) → False := by
    intro l hl
    simp only [List.mem_cons] at hl
    rcases hl with rfl | rfl | rfl | hl
    · exact keyLine_no_newline k
    · exact hBn
    · exact valueLine_no_newline v
    · exact hpost l hl
  have hsplit : splitNL (joinNL (keyLineIPP k :: B :: valueLineINP v :: post)) =
      keyLineIPP k :: B :: valueLineINP v :: post :=
    splitNL_joinNL _ hmem (by simp)
  unfold fix_yaml
  dsimp only
  rw [hsplit]
  simp only [List.length_cons]
  rw [goFuel_ipp_step (post.length + 1 + 1) k v B post [] [] false hB hkv]
  simp only [List.nil_append]
  obtain ⟨δ, hfs, hmd⟩ := goFuel_invariant (post.length + 1 + 1) post
    [mergedIPP k] [msgOrphanKey (strL "IfNotPresent")] true
  obtain ⟨pre2, hpre⟩ := goFuel_base_preserved (post.length + 1 + 1) post []
    [msgOrphanKey (strL "IfNotPresent")] true (mergedIPP k) (popCond_mergedIPP k)
  simp only [List.nil_append] at hpre
  refine ⟨pre2.reverse, δ, ?_⟩
  rw [hmd, hfs, hpre]
  simp [List.reverse_append]

theorem C7_witness :
    pyStripChars ([] : Line) = [] ∧ natAbsDiff 1 0 ≤ 1 ∧
    ∃ outRest fixRest,
      fix_yaml (String.mk (joinNL
          (keyLineIPP 0 :: ([] : Line) :: valueLineINP 1 :: []))) =
        (true, String.mk (joinNL (mergedIPP 0 :: outRest)),
         msgOrphanKey (strL "IfNotPresent") :: fixRest) :=
  ⟨rfl, by decide,
   C7_orphan_merge 0 1 [] [] rfl (by simp) (by simp) (by decide)⟩
